import Mathlib

/-!
# Hopfield tropospheric model (`src/hopfield.c`)

A shallow embedding of the two functions of `hopfield.c`,

* `tropmodelHpf` : zenith delay of the simplified Hopfield model,
* `tropmapfHpf`  : mapping function of the Hopfield model,

together with the properties of their control flow and of the values they
return.

## Numbers

A C `double` is modelled by `Dbl F`: either `nan`, or an exact number of an
ordered field `F` (`ℚ` for evaluation, `ℝ` for analysis).  The arithmetic of the
numbers is exact; rounding, overflow, infinities and the sign of zero are outside
the model.  `nan` is kept because it changes the control flow: every comparison
with a `nan` operand is false, as in C.

## Memory

An output parameter `double *p` is modelled by `Option (Dbl F)`: `none` is the
null pointer, `some v` is a pointer to a cell that holds `v`.  A call yields an
`Outcome`: either it returns (with the returned value, the cell after the call
and the trace log after the call), or it faults by writing through the null
pointer.

## Analysis

The properties of the mapping factors as functions of the elevation are proved
over the reals, with the real sine, the real square root and π.  They are the
properties that rounding leaves standing: equalities of one expression, bounds
that are not strict, and strict bounds with a margin.  A strict inequality
between the factors at two elevations holds of the real numbers and is used
below only to derive the one that is not strict: on doubles two neighbouring
elevations can give the same factor.

## The dialog

The functions `btnExecClicked`, `execProcessing`, `ProcessingThread::addInput`
and `ProcessingThread::toList` of `postmain.cpp` are embedded in the namespace
`RtkPost`, on strings as lists of characters.
-/

set_option linter.unusedVariables false

namespace Hopfield

/-! ## The model of `double` -/

/-- A C `double`: not-a-number, or an exact number of `F`. -/
inductive Dbl (F : Type) where
  | nan : Dbl F
  | num (x : F) : Dbl F
deriving DecidableEq, Repr

namespace Dbl

variable {F : Type}

/-- Lift a unary operation; `nan` propagates. -/
def map (f : F → F) : Dbl F → Dbl F
  | nan => nan
  | num x => num (f x)

/-- Lift a binary operation; `nan` propagates from either operand. -/
def map₂ (f : F → F → F) : Dbl F → Dbl F → Dbl F
  | num x, num y => num (f x y)
  | _, _ => nan

/-- The C comparison `a < b`: false as soon as an operand is `nan`. -/
def lt [LT F] : Dbl F → Dbl F → Prop
  | num x, num y => x < y
  | _, _ => False

/-- The C comparison `a <= b`: false as soon as an operand is `nan`. -/
def le [LE F] : Dbl F → Dbl F → Prop
  | num x, num y => x ≤ y
  | _, _ => False

/-- The C division `a / b`.  A zero divisor gives no number of the model (C
gives an infinity or a NaN there), so the quotient is `nan`. -/
def div [Div F] [Zero F] [DecidableEq F] : Dbl F → Dbl F → Dbl F
  | num x, num y => if y = 0 then nan else num (x / y)
  | _, _ => nan

/-- The power `pow(a, n)` for a natural exponent `n`, used with `n = 2`. -/
def pow [Monoid F] (a : Dbl F) (n : ℕ) : Dbl F := map (fun x => x ^ n) a

instance [LT F] : LT (Dbl F) := ⟨lt⟩

instance [LE F] : LE (Dbl F) := ⟨le⟩

instance [Add F] : Add (Dbl F) := ⟨map₂ (· + ·)⟩

instance [Mul F] : Mul (Dbl F) := ⟨map₂ (· * ·)⟩

instance [Neg F] : Neg (Dbl F) := ⟨map (fun x => -x)⟩

instance [Div F] [Zero F] [DecidableEq F] : Div (Dbl F) := ⟨div⟩

instance [Monoid F] : HPow (Dbl F) ℕ (Dbl F) := ⟨pow⟩

instance [NatCast F] (n : ℕ) : OfNat (Dbl F) n := ⟨num (n : F)⟩

instance [OfScientific F] : OfScientific (Dbl F) :=
  ⟨fun m s e => num (OfScientific.ofScientific m s e)⟩

instance [LT F] [DecidableRel (fun x y : F => x < y)] (a b : Dbl F) : Decidable (a < b) :=
  match a, b with
  | num x, num y => inferInstanceAs (Decidable (x < y))
  | nan, _ => isFalse (fun h => h)
  | num _, nan => isFalse (fun h => h)

instance [LE F] [DecidableRel (fun x y : F => x ≤ y)] (a b : Dbl F) : Decidable (a ≤ b) :=
  match a, b with
  | num x, num y => inferInstanceAs (Decidable (x ≤ y))
  | nan, _ => isFalse (fun h => h)
  | num _, nan => isFalse (fun h => h)

end Dbl

/-! ## The environment of the two functions -/

/-- The parts of the C environment that `hopfield.c` uses and does not define:
the library functions `sin` and `sqrt` on numbers, and the constants `PI` and
`R2D` of `rtklib.h`. -/
structure MathEnv (F : Type) where
  sin : F → F
  sqrt : F → F
  PI : F
  R2D : F

/-- The C call `sin(a)`. -/
def Dbl.sin {F : Type} (L : MathEnv F) (a : Dbl F) : Dbl F := Dbl.map L.sin a

/-- The C call `sqrt(a)`: not a number for a negative argument. -/
def Dbl.sqrt {F : Type} [LT F] [Zero F] [DecidableRel (fun x y : F => x < y)]
    (L : MathEnv F) : Dbl F → Dbl F
  | Dbl.num x => if x < 0 then Dbl.nan else Dbl.num (L.sqrt x)
  | Dbl.nan => Dbl.nan

/-- The type `gtime_t` of `rtklib.h`: whole seconds and a fraction of a second. -/
structure gtime_t (F : Type) where
  time : Int
  sec : Dbl F

/-- One record of the diagnostic trace: level, format and the numeric arguments. -/
structure TraceRec (F : Type) where
  level : Nat
  format : String
  args : List (Dbl F)

/-- Modelled from the spec: the diagnostic trace sink `trace` is defined outside
these sources; a call is modelled as the emission of one record, appended to the
log of the records emitted so far. -/
def trace {F : Type} (log : List (TraceRec F)) (level : Nat) (format : String)
    (args : List (Dbl F)) : List (TraceRec F) :=
  log ++ [TraceRec.mk level format args]

/-- What a call does: it returns a value, leaving the output cell and the trace
log in some state, or it faults by a write through the null pointer. -/
inductive Outcome (F : Type) where
  | ret (val : Dbl F) (out : Option (Dbl F)) (log : List (TraceRec F)) : Outcome F
  | fault (log : List (TraceRec F)) : Outcome F

namespace Outcome

variable {F : Type}

/-- The returned value, when the call returns. -/
def val? : Outcome F → Option (Dbl F)
  | ret v _ _ => some v
  | fault _ => none

/-- The output cell after the call (`none`: no cell, or no return). -/
def out? : Outcome F → Option (Dbl F)
  | ret _ o _ => o
  | fault _ => none

/-- The trace log after the call. -/
def log : Outcome F → List (TraceRec F)
  | ret _ _ l => l
  | fault l => l

/-- Whether the call faulted. -/
def faults : Outcome F → Bool
  | ret _ _ _ => false
  | fault _ => true

end Outcome

/-- The C statement `if (p) *p = v;` on an output parameter. -/
def storeIfSupplied {F : Type} (p : Option (Dbl F)) (v : Dbl F) : Option (Dbl F) :=
  match p with
  | none => none
  | some _ => some v

/-! ## The two functions -/

section Code

variable {F : Type} [LinearOrderedField F]

/-- The function `tropmodelHpf` of `hopfield.c` (lines 21-42). -/
def tropmodelHpf (log : List (TraceRec F)) (time : gtime_t F) (pos : Fin 3 → Dbl F)
    (azel : Fin 2 → Dbl F) (humi : Dbl F) (zwd : Option (Dbl F)) : Outcome F :=
  if pos 2 < -100.0 ∨ 1E4 < pos 2 ∨ azel 1 ≤ 0 then Outcome.ret 0.0 zwd log
  else
    /- standard atmosphere -/
    let hgt : Dbl F := if pos 2 < 0.0 then 0.0 else pos 2
    let pres : Dbl F := 1010.0
    let temp : Dbl F := 291.1
    let e : Dbl F := 10.4
    /- Hopfield model -/
    let trph : Dbl F := (77.6e-6 * (-613.3768 / temp + 148.98) * pres) / 5.0
    let trpw : Dbl F := (77.6e-6 * 11000.0 * 4810.0 * e / temp ^ 2) / 5.0
    let zwd := storeIfSupplied zwd trpw
    Outcome.ret trph zwd log

/-- The function `tropmapfHpf` of `hopfield.c` (lines 52-69).  The write
`*mapfw = ...` of line 66 is not guarded: it faults when `mapfw` is null. -/
def tropmapfHpf (L : MathEnv F) (log : List (TraceRec F)) (time : gtime_t F)
    (pos : Fin 3 → Dbl F) (azel : Fin 2 → Dbl F) (mapfw : Option (Dbl F)) : Outcome F :=
  let log := trace log 4 "tropmapfhpf: pos=%10.6f %11.6f %6.1f azel=%5.1f %4.1f\n"
    [pos 0 * Dbl.num L.R2D, pos 1 * Dbl.num L.R2D, pos 2,
      azel 0 * Dbl.num L.R2D, azel 1 * Dbl.num L.R2D]
  if pos 2 < -1000.0 ∨ pos 2 > 20000.0 then
    Outcome.ret 0.0 (storeIfSupplied mapfw 0.0) log
  else
    let mapfh : Dbl F :=
      1.0 / (Dbl.sin L (Dbl.sqrt L (azel 1 ^ 2 + (Dbl.num L.PI / 72.0) ^ 2)))
    match mapfw with
    | none => Outcome.fault log
    | some _ =>
      Outcome.ret mapfh
        (some (1.0 / (Dbl.sin L (Dbl.sqrt L (azel 1 ^ 2 + (Dbl.num L.PI / 120.0) ^ 2))))) log

end Code

/-- Modelled from the spec: the constants `PI` and `R2D` of `rtklib.h` and the C
library functions `sin` and `sqrt` are not in these sources; over the reals they
are taken as π, 180/π, the real sine and the real square root. -/
noncomputable def realEnv : MathEnv ℝ :=
  MathEnv.mk Real.sin Real.sqrt Real.pi (180 / Real.pi)

end Hopfield

/-! # The post-processing dialog (`app/qtapp/rtkpost_qt/postmain.cpp`)

A `QString` is modelled by the list of its characters.  The functions of Qt that
the code calls are modelled as Qt documents them. -/

namespace RtkPost

/-- A `QString`: its characters. -/
abbrev QString := List Char

/-! ## Functions of Qt -/

/-- The search of `QString::indexOf(c)` from position `i` on: the index of the
first occurrence of `c`, or -1. -/
def indexOfFrom (c : Char) (i : Nat) : QString → Int
  | [] => -1
  | x :: xs => if x = c then (i : Int) else indexOfFrom c (i + 1) xs

/-- The Qt function `QString::indexOf` for one character: the index of its first
occurrence, or -1 when there is none. -/
def indexOf (c : Char) (s : QString) : Int := indexOfFrom c 0 s

/-- The Qt function `QString::mid(position, n)` for `position >= 0` and
`n >= 0`: the `n` characters from `position` on, fewer when the string ends. -/
def mid (s : QString) (position n : Int) : QString :=
  (s.drop position.toNat).take n.toNat

/-- The Qt function `QString::split` for one separator character: the pieces
between the separators, empty pieces kept, so that a string with `k` separators
has `k + 1` pieces. -/
def split (sep : Char) : QString → List QString
  | [] => [[]]
  | c :: cs =>
    if c = sep then [] :: split sep cs
    else
      match split sep cs with
      | [] => [[c]]
      | piece :: pieces => (c :: piece) :: pieces

/-- The characters after the last occurrence of `c`; the whole string when `c`
does not occur. -/
def afterLast (c : Char) (s : QString) : QString :=
  (s.reverse.takeWhile (fun x => x ≠ c)).reverse

/-- The Qt function `QFileInfo::fileName`: the path without its directories. -/
def fileName (path : QString) : QString := afterLast '/' path

/-- The Qt function `QFileInfo::suffix`: the characters of the file name after
its last `'.'`, the dot not included; empty when the file name has no dot. -/
def suffix (path : QString) : QString :=
  if '.' ∈ fileName path then afterLast '.' (fileName path) else []

/-- Whether `t` starts with `pat`, the case of letters ignored. -/
def startsWithCI : QString → QString → Bool
  | [], _ => true
  | _ :: _, [] => false
  | p :: ps, c :: cs => p.toLower == c.toLower && startsWithCI ps cs

/-- The Qt function `QString::contains(str, Qt::CaseInsensitive)`: whether `str`
occurs in the string, the case of letters ignored. -/
def containsCI (s pat : QString) : Bool :=
  s.tails.any (fun t => startsWithCI pat t)

/-- A match of the regular expression `\.\d\d[ondg]`, case-insensitive, at the
start of `t`: a dot, two digits and one of the letters `o`, `n`, `d`, `g`. -/
def matchesRinexExtAt : QString → Bool
  | c0 :: c1 :: c2 :: c3 :: _ =>
    c0 == '.' && c1.isDigit && c2.isDigit &&
      (c3.toLower == 'o' || c3.toLower == 'n' || c3.toLower == 'd' || c3.toLower == 'g')
  | _ => false

/-- The Qt function `QString::contains(QRegularExpression)` for the expression
`\.\d\d[ondg]`, case-insensitive: whether it matches somewhere in the string. -/
def containsRinexExt (s : QString) : Bool :=
  s.tails.any matchesRinexExtAt

/-- The C function `strncpy(dst, src, n)`, as the characters that `dst` holds
afterwards: the first `n` characters of `src`. -/
def strncpy (src : QString) (n : Nat) : QString := src.take n

/-! ## `MainForm::btnExecClicked` -/

/-- What a click on the execute button ends in: a message shown by `showmsg` and
a return, or the call of `execProcessing`. -/
inductive Clicked where
  | message (format : String) (args : List QString) : Clicked
  | execProcessing : Clicked
deriving DecidableEq

/-- The function `MainForm::btnExecClicked` of `postmain.cpp` (lines 472-512).
The texts of the combo boxes and the positioning mode are arguments; `PMODE_DGPS`
and `PMODE_FIXED` are constants of `rtklib.h`. -/
def btnExecClicked (PMODE_DGPS PMODE_FIXED : Int)
    (cBInputFile1 cBInputFile2 cBOutputFile : QString) (positionMode : Int) : Clicked :=
  let OutputFile_Text := cBOutputFile
  if cBInputFile1 = [] then
    Clicked.message "error : no rinex obs file (rover)" []
  else if cBInputFile2 = [] ∧ PMODE_DGPS ≤ positionMode ∧ positionMode ≤ PMODE_FIXED then
    Clicked.message "error : no rinex obs file (base station)" []
  else if cBOutputFile = [] then
    Clicked.message "error : no output file" []
  else
    let f := OutputFile_Text
    if containsCI (suffix f) ".obs".toList ||
        containsCI (suffix f) ".rnx".toList ||
        containsCI (suffix f) ".nav".toList ||
        containsCI (suffix f) ".gnav".toList ||
        containsCI (suffix f) ".gz".toList ||
        containsCI (suffix f) ".Z".toList ||
        containsRinexExt (suffix f) then
      Clicked.message "error : invalid extension of output file (%s)" [OutputFile_Text]
    else
      Clicked.execProcessing

/-! ## `ProcessingThread` -/

/-- The members of `ProcessingThread` that hold the input files: the count `n`
and the buffers `infile`. -/
structure ProcessingThread where
  n : Nat
  infile : List QString
deriving DecidableEq

/-- The constructor of `ProcessingThread` (lines 118-132): `n = 0` and six
buffers, each holding the empty string. -/
def ProcessingThread.new : ProcessingThread :=
  ProcessingThread.mk 0 (List.replicate 6 [])

/-- The function `ProcessingThread::addInput` (lines 139-143).  The result is
`none` when the write `infile[n++]` is outside the buffers. -/
def ProcessingThread.addInput (t : ProcessingThread) (file : QString) :
    Option ProcessingThread :=
  if file ≠ [] then
    if t.n < t.infile.length then
      some (ProcessingThread.mk (t.n + 1) (t.infile.set t.n (strncpy file 1024)))
    else none
  else some t

/-- The function `ProcessingThread::toList` (lines 153-164). -/
def ProcessingThread.toList (list : QString) : QString :=
  let lines := split '\n' list
  lines.foldl
    (fun stations line =>
      let index := indexOf '#' line
      let index := if index = -1 then (line.length : Int) else index
      stations ++ (mid line 0 index ++ " ".toList))
    []

/-- The result of `toList` in the words of its description: for each line of
the text, in order, the part before its first `'#'` followed by one space. -/
def toListSpec (text : QString) : QString :=
  ((split '\n' text).map (fun line => line.takeWhile (fun c => c ≠ '#') ++ [' '])).flatten

/-! ## `MainForm::execProcessing` -/

/-- The function `MainForm::getOption` (lines 864-1015), for what
`execProcessing` reads of it: the return value, always 1, and `prcopt.mode`, set
to the positioning mode of the dialog. -/
def getOption (positionMode : Int) : Int × Int := (1, positionMode)

/-- How `execProcessing` ends before the input files are all set: by a write
outside the buffers, or by `processingFinished(0)` and a return, after a message
or without one. -/
inductive Stop where
  | fault : Stop
  | finished (t : ProcessingThread) (message : Option String) : Stop
deriving DecidableEq

/-- A call of `addInput` inside `execProcessing`. -/
def addInputStep (t : ProcessingThread) (file : QString) : Except Stop ProcessingThread :=
  match t.addInput file with
  | none => Except.error Stop.fault
  | some t2 => Except.ok t2

/-- The function `MainForm::execProcessing` of `postmain.cpp` (lines 787-834), up
to the point where the input files are set.  The texts of the combo boxes and the
positioning mode are arguments; `obsToNav` reads the file system and is an
argument too: its return value and the file name it outputs. -/
def execProcessing (PMODE_DGPS PMODE_FIXED : Int) (obsToNav : QString → Int × QString)
    (InputFile1_Text InputFile2_Text InputFile3_Text InputFile4_Text InputFile5_Text
      InputFile6_Text : QString) (positionMode : Int) : Except Stop ProcessingThread :=
  let processingThread := ProcessingThread.new
  if (getOption positionMode).1 = 0 then
    Except.error (Stop.finished processingThread none)
  else do
    let mode := (getOption positionMode).2
    let processingThread ← addInputStep processingThread InputFile1_Text
    let processingThread ←
      (if PMODE_DGPS ≤ mode ∧ mode ≤ PMODE_FIXED then
        addInputStep processingThread InputFile2_Text
      else pure processingThread)
    let processingThread ←
      (if InputFile3_Text ≠ [] then
        addInputStep processingThread InputFile3_Text
      else if (obsToNav InputFile1_Text).1 = 0 then
        Except.error (Stop.finished processingThread (some "error: no navigation data"))
      else
        addInputStep processingThread (obsToNav InputFile1_Text).2)
    let processingThread ←
      (if InputFile4_Text ≠ [] then addInputStep processingThread InputFile4_Text
      else pure processingThread)
    let processingThread ←
      (if InputFile5_Text ≠ [] then addInputStep processingThread InputFile5_Text
      else pure processingThread)
    let processingThread ←
      (if InputFile6_Text ≠ [] then addInputStep processingThread InputFile6_Text
      else pure processingThread)
    pure processingThread

/-- The names that `execProcessing` hands to `addInput`, in the order of the
calls: rover, base (in the modes that use one), navigation, and the files 4, 5
and 6. -/
def inputsInOrder (PMODE_DGPS PMODE_FIXED : Int) (obsToNav : QString → Int × QString)
    (InputFile1_Text InputFile2_Text InputFile3_Text InputFile4_Text InputFile5_Text
      InputFile6_Text : QString) (positionMode : Int) : List QString :=
  [InputFile1_Text] ++
    (if PMODE_DGPS ≤ positionMode ∧ positionMode ≤ PMODE_FIXED then [InputFile2_Text] else []) ++
    [if InputFile3_Text ≠ [] then InputFile3_Text else (obsToNav InputFile1_Text).2] ++
    [InputFile4_Text] ++ [InputFile5_Text] ++ [InputFile6_Text]

/-- The names stored in the table: the first `n` buffers. -/
def ProcessingThread.stored (t : ProcessingThread) : List QString := t.infile.take t.n

end RtkPost

namespace Hopfield

/-! ## Arithmetic and comparisons of `Dbl` -/

namespace Dbl

variable {F : Type} [LinearOrderedField F]

@[simp]
theorem num_lt_num (x y : F) : (num x < num y) ↔ x < y := Iff.rfl

@[simp]
theorem num_le_num (x y : F) : (num x ≤ num y) ↔ x ≤ y := Iff.rfl

@[simp]
theorem not_nan_lt (b : Dbl F) : ¬ (nan < b) := fun h => h

@[simp]
theorem not_lt_nan (a : Dbl F) : ¬ (a < nan) := by
  cases a <;> exact fun h => h

@[simp]
theorem not_nan_le (b : Dbl F) : ¬ (nan ≤ b) := fun h => h

@[simp]
theorem not_le_nan (a : Dbl F) : ¬ (a ≤ nan) := by
  cases a <;> exact fun h => h

@[simp]
theorem zero_eq : (0 : Dbl F) = num 0 := by
  show num ((0 : ℕ) : F) = num 0
  rw [Nat.cast_zero]

@[simp]
theorem ofScientific_eq (m : ℕ) (s : Bool) (e : ℕ) :
    (OfScientific.ofScientific m s e : Dbl F) = num (OfScientific.ofScientific m s e) := rfl

@[simp]
theorem neg_num (x : F) : -(num x) = num (-x) := rfl

@[simp]
theorem num_add_num (x y : F) : num x + num y = num (x + y) := rfl

@[simp]
theorem num_mul_num (x y : F) : num x * num y = num (x * y) := rfl

@[simp]
theorem num_pow (x : F) (n : ℕ) : (num x) ^ n = num (x ^ n) := rfl

theorem num_div_num (x y : F) : num x / num y = if y = 0 then nan else num (x / y) := rfl

@[simp]
theorem num_div_num_of_ne (x : F) {y : F} (hy : y ≠ 0) : num x / num y = num (x / y) := by
  rw [num_div_num, if_neg hy]

/-- A comparison `a ≤ b` that holds is between two numbers. -/
theorem le_iff_exists (a b : Dbl F) : a ≤ b ↔ ∃ x y : F, a = num x ∧ b = num y ∧ x ≤ y := by
  cases a <;> cases b <;> simp

/-- A comparison `a < b` that holds is between two numbers. -/
theorem lt_iff_exists (a b : Dbl F) : a < b ↔ ∃ x y : F, a = num x ∧ b = num y ∧ x < y := by
  cases a <;> cases b <;> simp

/-- A comparison `a ≤ b` that holds excludes `b < a`. -/
theorem not_lt_of_le {a b : Dbl F} (h : a ≤ b) : ¬ (b < a) := by
  cases a <;> cases b <;> simp at h ⊢
  exact h

/-- A comparison `a < b` that holds excludes `b ≤ a`. -/
theorem not_le_of_lt {a b : Dbl F} (h : a < b) : ¬ (b ≤ a) := by
  cases a <;> cases b <;> simp at h ⊢
  exact h

end Dbl


section Model

variable {F : Type} [LinearOrderedField F]

/-- The literals of the height and elevation test of `tropmodelHpf`, as numbers. -/
theorem tropmodelHpf_test_iff (pos : Fin 3 → Dbl F) (azel : Fin 2 → Dbl F) :
    (pos 2 < -100.0 ∨ 1E4 < pos 2 ∨ azel 1 ≤ 0) ↔
      (pos 2 < Dbl.num (-100) ∨ Dbl.num 10000 < pos 2 ∨ azel 1 ≤ Dbl.num 0) := by
  have h1 : (-100.0 : Dbl F) = Dbl.num (-100) := by
    simp only [Dbl.ofScientific_eq, Dbl.neg_num]; norm_num
  have h2 : (1E4 : Dbl F) = Dbl.num 10000 := by
    simp only [Dbl.ofScientific_eq]; norm_num
  rw [h1, h2, Dbl.zero_eq]

/-- The degenerate path of `tropmodelHpf`: the test of line 26 holds. -/
theorem tropmodelHpf_rejected (log : List (TraceRec F)) (time : gtime_t F)
    (pos : Fin 3 → Dbl F) (azel : Fin 2 → Dbl F) (humi : Dbl F) (zwd : Option (Dbl F))
    (h : pos 2 < Dbl.num (-100) ∨ Dbl.num 10000 < pos 2 ∨ azel 1 ≤ Dbl.num 0) :
    tropmodelHpf log time pos azel humi zwd = Outcome.ret (Dbl.num 0) zwd log := by
  have h0 : (0.0 : Dbl F) = Dbl.num 0 := by
    simp only [Dbl.ofScientific_eq]; norm_num
  unfold tropmodelHpf
  rw [if_pos ((tropmodelHpf_test_iff pos azel).2 h), h0]

/-- The valid path of `tropmodelHpf`: the test of line 26 fails. -/
theorem tropmodelHpf_accepted (log : List (TraceRec F)) (time : gtime_t F)
    (pos : Fin 3 → Dbl F) (azel : Fin 2 → Dbl F) (humi : Dbl F) (zwd : Option (Dbl F))
    (h : ¬ (pos 2 < Dbl.num (-100) ∨ Dbl.num 10000 < pos 2 ∨ azel 1 ≤ Dbl.num 0)) :
    tropmodelHpf log time pos azel humi zwd =
      Outcome.ret (Dbl.num ((77.6e-6 * (-613.3768 / 291.1 + 148.98) * 1010.0) / 5.0))
        (storeIfSupplied zwd (Dbl.num ((77.6e-6 * 11000.0 * 4810.0 * 10.4 / 291.1 ^ 2) / 5.0)))
        log := by
  have hT : (291.1 : F) ≠ 0 := by norm_num
  have h5 : (5.0 : F) ≠ 0 := by norm_num
  have hT2 : (291.1 : F) ^ 2 ≠ 0 := pow_ne_zero 2 hT
  unfold tropmodelHpf
  rw [if_neg (fun hc => h ((tropmodelHpf_test_iff pos azel).1 hc))]
  simp only [Dbl.ofScientific_eq, Dbl.neg_num, Dbl.num_add_num, Dbl.num_mul_num, Dbl.num_pow,
    Dbl.num_div_num_of_ne _ hT, Dbl.num_div_num_of_ne _ h5, Dbl.num_div_num_of_ne _ hT2, neg_div]

/-- The valid path in the terms of the claims: height within `[-100, 10000]`
and elevation positive. -/
theorem tropmodelHpf_not_rejected {pos : Fin 3 → Dbl F} {azel : Fin 2 → Dbl F}
    (hlo : Dbl.num (-100) ≤ pos 2) (hhi : pos 2 ≤ Dbl.num 10000) (hel : Dbl.num 0 < azel 1) :
    ¬ (pos 2 < Dbl.num (-100) ∨ Dbl.num 10000 < pos 2 ∨ azel 1 ≤ Dbl.num 0) := by
  rintro (h | h | h)
  · exact Dbl.not_lt_of_le hlo h
  · exact Dbl.not_lt_of_le hhi h
  · exact Dbl.not_le_of_lt hel h

/-- The dry zenith delay of the valid path is a positive number. -/
theorem dry_delay_pos : (0 : F) < (77.6e-6 * (-613.3768 / 291.1 + 148.98) * 1010.0) / 5.0 := by
  norm_num

end Model

/-! ## The zenith delay `tropmodelHpf` -/

section ModelClaims

variable {F : Type} [LinearOrderedField F]

/-- C1: on the valid path of `tropmodelHpf` (height within `[-100, 10000]`, elevation
positive) the returned dry zenith delay is the one constant
`(77.6e-6 * (-613.3768/291.1 + 148.98) * 1010.0) / 5.0`, whatever the humidity, the
height, the elevation and the other arguments are. -/
theorem tropmodelHpf_dry_delay_constant (log : List (TraceRec F)) (time : gtime_t F)
    (pos : Fin 3 → Dbl F) (azel : Fin 2 → Dbl F) (humi : Dbl F) (zwd : Option (Dbl F))
    (hlo : Dbl.num (-100) ≤ pos 2) (hhi : pos 2 ≤ Dbl.num 10000) (hel : Dbl.num 0 < azel 1) :
    (tropmodelHpf log time pos azel humi zwd).val? =
      some (Dbl.num ((77.6e-6 * (-613.3768 / 291.1 + 148.98) * 1010.0) / 5.0)) := by
  rw [tropmodelHpf_accepted log time pos azel humi zwd (tropmodelHpf_not_rejected hlo hhi hel)]
  rfl

/-- Witness at height -50 m (clamped to 0 by the code), elevation 1/2 rad. -/
theorem tropmodelHpf_dry_delay_constant_witness :
    (tropmodelHpf ([] : List (TraceRec ℚ)) (gtime_t.mk 0 (Dbl.num 0))
        ![Dbl.num 0, Dbl.num 0, Dbl.num (-50)] ![Dbl.num 0, Dbl.num (1 / 2)]
        (Dbl.num (7 / 10)) none).val? =
      some (Dbl.num ((77.6e-6 * (-613.3768 / 291.1 + 148.98) * 1010.0) / 5.0)) :=
  tropmodelHpf_dry_delay_constant [] (gtime_t.mk 0 (Dbl.num 0))
    ![Dbl.num 0, Dbl.num 0, Dbl.num (-50)] ![Dbl.num 0, Dbl.num (1 / 2)] (Dbl.num (7 / 10)) none
    (by norm_num) (by norm_num) (by norm_num)

/-- C2: on the valid path of `tropmodelHpf` with a wet-delay slot supplied, the
slot is set to `(77.6e-6 * 11000.0 * 4810.0 * 10.4 / 291.1^2) / 5.0`, whatever the
humidity: calls that differ only in humidity write the same wet delay. -/
theorem tropmodelHpf_wet_delay_constant (log : List (TraceRec F)) (time : gtime_t F)
    (pos : Fin 3 → Dbl F) (azel : Fin 2 → Dbl F) (humi : Dbl F) (w0 : Dbl F)
    (hlo : Dbl.num (-100) ≤ pos 2) (hhi : pos 2 ≤ Dbl.num 10000) (hel : Dbl.num 0 < azel 1) :
    (tropmodelHpf log time pos azel humi (some w0)).out? =
        some (Dbl.num ((77.6e-6 * 11000.0 * 4810.0 * 10.4 / 291.1 ^ 2) / 5.0)) ∧
      ∀ humi2 : Dbl F,
        (tropmodelHpf log time pos azel humi2 (some w0)).out? =
          (tropmodelHpf log time pos azel humi (some w0)).out? := by
  have hv := tropmodelHpf_not_rejected hlo hhi hel
  refine ⟨?_, fun humi2 => ?_⟩
  · rw [tropmodelHpf_accepted log time pos azel humi (some w0) hv]
    rfl
  · rw [tropmodelHpf_accepted log time pos azel humi (some w0) hv,
      tropmodelHpf_accepted log time pos azel humi2 (some w0) hv]

/-- Witness at height 120 m, elevation 1/2 rad, humidity 0.7 against 0.1. -/
theorem tropmodelHpf_wet_delay_constant_witness :
    (tropmodelHpf ([] : List (TraceRec ℚ)) (gtime_t.mk 0 (Dbl.num 0))
        ![Dbl.num 0, Dbl.num 0, Dbl.num 120] ![Dbl.num 0, Dbl.num (1 / 2)]
        (Dbl.num (7 / 10)) (some (Dbl.num 3))).out? =
      some (Dbl.num ((77.6e-6 * 11000.0 * 4810.0 * 10.4 / 291.1 ^ 2) / 5.0)) ∧
    (tropmodelHpf ([] : List (TraceRec ℚ)) (gtime_t.mk 0 (Dbl.num 0))
        ![Dbl.num 0, Dbl.num 0, Dbl.num 120] ![Dbl.num 0, Dbl.num (1 / 2)]
        (Dbl.num (1 / 10)) (some (Dbl.num 3))).out? =
      (tropmodelHpf ([] : List (TraceRec ℚ)) (gtime_t.mk 0 (Dbl.num 0))
        ![Dbl.num 0, Dbl.num 0, Dbl.num 120] ![Dbl.num 0, Dbl.num (1 / 2)]
        (Dbl.num (7 / 10)) (some (Dbl.num 3))).out? :=
  have h := tropmodelHpf_wet_delay_constant [] (gtime_t.mk 0 (Dbl.num 0))
    ![Dbl.num 0, Dbl.num 0, Dbl.num 120] ![Dbl.num 0, Dbl.num (1 / 2)] (Dbl.num (7 / 10))
    (Dbl.num 3) (by norm_num) (by norm_num) (by norm_num)
  ⟨h.1, h.2 (Dbl.num (1 / 10))⟩

/-- C3: for every elevation `azel[1] <= 0`, zero included, `tropmodelHpf` returns
0.0, for every position (a height inside `[-100, 10000]` too) and every humidity. -/
theorem tropmodelHpf_nonpositive_elevation (log : List (TraceRec F)) (time : gtime_t F)
    (pos : Fin 3 → Dbl F) (azel : Fin 2 → Dbl F) (humi : Dbl F) (zwd : Option (Dbl F))
    (hel : azel 1 ≤ Dbl.num 0) :
    (tropmodelHpf log time pos azel humi zwd).val? = some (Dbl.num 0) := by
  rw [tropmodelHpf_rejected log time pos azel humi zwd (Or.inr (Or.inr hel))]
  rfl

/-- Witness at elevation exactly 0 and the in-range height 500 m. -/
theorem tropmodelHpf_nonpositive_elevation_witness :
    (tropmodelHpf ([] : List (TraceRec ℚ)) (gtime_t.mk 0 (Dbl.num 0))
        ![Dbl.num 0, Dbl.num 0, Dbl.num 500] ![Dbl.num 0, Dbl.num 0]
        (Dbl.num (7 / 10)) (some (Dbl.num 3))).val? = some (Dbl.num 0) :=
  tropmodelHpf_nonpositive_elevation [] (gtime_t.mk 0 (Dbl.num 0))
    ![Dbl.num 0, Dbl.num 0, Dbl.num 500] ![Dbl.num 0, Dbl.num 0] (Dbl.num (7 / 10))
    (some (Dbl.num 3)) (by norm_num)

/-- C4: for every height `pos[2] < -100` or `pos[2] > 10000`, `tropmodelHpf`
returns 0.0, for every elevation and every humidity. -/
theorem tropmodelHpf_height_out_of_range (log : List (TraceRec F)) (time : gtime_t F)
    (pos : Fin 3 → Dbl F) (azel : Fin 2 → Dbl F) (humi : Dbl F) (zwd : Option (Dbl F))
    (hh : pos 2 < Dbl.num (-100) ∨ Dbl.num 10000 < pos 2) :
    (tropmodelHpf log time pos azel humi zwd).val? = some (Dbl.num 0) := by
  have hc : pos 2 < Dbl.num (-100) ∨ Dbl.num 10000 < pos 2 ∨ azel 1 ≤ Dbl.num 0 :=
    hh.elim Or.inl (fun h => Or.inr (Or.inl h))
  rw [tropmodelHpf_rejected log time pos azel humi zwd hc]
  rfl

/-- Witness at height 10001 m and elevation 1 rad. -/
theorem tropmodelHpf_height_out_of_range_witness :
    (tropmodelHpf ([] : List (TraceRec ℚ)) (gtime_t.mk 0 (Dbl.num 0))
        ![Dbl.num 0, Dbl.num 0, Dbl.num 10001] ![Dbl.num 0, Dbl.num 1]
        (Dbl.num (7 / 10)) none).val? = some (Dbl.num 0) :=
  tropmodelHpf_height_out_of_range [] (gtime_t.mk 0 (Dbl.num 0))
    ![Dbl.num 0, Dbl.num 0, Dbl.num 10001] ![Dbl.num 0, Dbl.num 1] (Dbl.num (7 / 10))
    none (Or.inr (by norm_num))

/-- C5: on the degenerate path of `tropmodelHpf` (`pos[2] < -100`, or
`pos[2] > 10000`, or `azel[1] <= 0`) the call returns 0.0 and the wet-delay slot
is as it was before the call: an absent slot stays absent, a supplied slot holds
the value it held. -/
theorem tropmodelHpf_degenerate_keeps_slot (log : List (TraceRec F)) (time : gtime_t F)
    (pos : Fin 3 → Dbl F) (azel : Fin 2 → Dbl F) (humi : Dbl F) (zwd : Option (Dbl F))
    (hd : pos 2 < Dbl.num (-100) ∨ Dbl.num 10000 < pos 2 ∨ azel 1 ≤ Dbl.num 0) :
    (tropmodelHpf log time pos azel humi zwd).out? = zwd ∧
      (tropmodelHpf log time pos azel humi zwd).val? = some (Dbl.num 0) := by
  rw [tropmodelHpf_rejected log time pos azel humi zwd hd]
  exact ⟨rfl, rfl⟩

/-- Witness at position `{0, 0, -200}`, elevation 45 degrees (as the
number 0.785398), the slot holding 7 before the call. -/
theorem tropmodelHpf_degenerate_keeps_slot_witness :
    (tropmodelHpf ([] : List (TraceRec ℚ)) (gtime_t.mk 0 (Dbl.num 0))
        ![Dbl.num 0, Dbl.num 0, Dbl.num (-200)] ![Dbl.num 0, Dbl.num 0.785398]
        (Dbl.num (7 / 10)) (some (Dbl.num 7))).out? = some (Dbl.num 7) ∧
    (tropmodelHpf ([] : List (TraceRec ℚ)) (gtime_t.mk 0 (Dbl.num 0))
        ![Dbl.num 0, Dbl.num 0, Dbl.num (-200)] ![Dbl.num 0, Dbl.num 0.785398]
        (Dbl.num (7 / 10)) (some (Dbl.num 7))).val? = some (Dbl.num 0) :=
  tropmodelHpf_degenerate_keeps_slot [] (gtime_t.mk 0 (Dbl.num 0))
    ![Dbl.num 0, Dbl.num 0, Dbl.num (-200)] ![Dbl.num 0, Dbl.num 0.785398] (Dbl.num (7 / 10))
    (some (Dbl.num 7)) (Or.inl (by norm_num))

/-- C6: `tropmodelHpf` returns 0.0 if and only if `pos[2] < -100` or
`pos[2] > 10000` or `azel[1] <= 0`; at the boundary heights -100 and 10000 with a
positive elevation it returns the valid-path constant, which is strictly positive. -/
theorem tropmodelHpf_zero_iff_degenerate (log : List (TraceRec F)) (time : gtime_t F)
    (pos : Fin 3 → Dbl F) (azel : Fin 2 → Dbl F) (humi : Dbl F) (zwd : Option (Dbl F)) :
    ((tropmodelHpf log time pos azel humi zwd).val? = some (Dbl.num 0) ↔
        (pos 2 < Dbl.num (-100) ∨ Dbl.num 10000 < pos 2 ∨ azel 1 ≤ Dbl.num 0)) ∧
      ((pos 2 = Dbl.num (-100) ∨ pos 2 = Dbl.num 10000) → Dbl.num 0 < azel 1 →
        (tropmodelHpf log time pos azel humi zwd).val? =
            some (Dbl.num ((77.6e-6 * (-613.3768 / 291.1 + 148.98) * 1010.0) / 5.0)) ∧
          (0 : F) < (77.6e-6 * (-613.3768 / 291.1 + 148.98) * 1010.0) / 5.0) := by
  constructor
  · constructor
    · intro h
      by_contra hc
      rw [tropmodelHpf_accepted log time pos azel humi zwd hc] at h
      have h2 : ((77.6e-6 * (-613.3768 / 291.1 + 148.98) * 1010.0) / 5.0 : F) = 0 :=
        Dbl.num.inj (Option.some.inj h)
      exact absurd h2 (ne_of_gt dry_delay_pos)
    · intro h
      rw [tropmodelHpf_rejected log time pos azel humi zwd h]
      rfl
  · intro hb hel
    have hv : ¬ (pos 2 < Dbl.num (-100) ∨ Dbl.num 10000 < pos 2 ∨ azel 1 ≤ Dbl.num 0) := by
      rcases hb with hb | hb
      · exact tropmodelHpf_not_rejected (by rw [hb]; simp) (by rw [hb]; norm_num) hel
      · exact tropmodelHpf_not_rejected (by rw [hb]; norm_num) (by rw [hb]; simp) hel
    rw [tropmodelHpf_accepted log time pos azel humi zwd hv]
    exact ⟨rfl, dry_delay_pos⟩

/-- Witness at the boundary height -100 m with elevation 1/10 rad: the
returned value is not 0.0. -/
theorem tropmodelHpf_zero_iff_degenerate_witness :
    (tropmodelHpf ([] : List (TraceRec ℚ)) (gtime_t.mk 0 (Dbl.num 0))
        ![Dbl.num 0, Dbl.num 0, Dbl.num (-100)] ![Dbl.num 0, Dbl.num (1 / 10)]
        (Dbl.num (7 / 10)) none).val? ≠ some (Dbl.num 0) := by
  intro h
  have hiff := (tropmodelHpf_zero_iff_degenerate ([] : List (TraceRec ℚ))
    (gtime_t.mk 0 (Dbl.num 0)) ![Dbl.num 0, Dbl.num 0, Dbl.num (-100)]
    ![Dbl.num 0, Dbl.num (1 / 10)] (Dbl.num (7 / 10)) none).1
  have hd := hiff.1 h
  norm_num at hd

end ModelClaims

/-! ## The mapping function `tropmapfHpf` -/

section Mapping

variable {F : Type} [LinearOrderedField F]

/-- The literals of the height test of `tropmapfHpf`, as numbers. -/
theorem tropmapfHpf_test_iff (pos : Fin 3 → Dbl F) :
    (pos 2 < -1000.0 ∨ pos 2 > 20000.0) ↔
      (pos 2 < Dbl.num (-1000) ∨ Dbl.num 20000 < pos 2) := by
  have h1 : (-1000.0 : Dbl F) = Dbl.num (-1000) := by
    simp only [Dbl.ofScientific_eq, Dbl.neg_num]; norm_num
  have h2 : (20000.0 : Dbl F) = Dbl.num 20000 := by
    simp only [Dbl.ofScientific_eq]; norm_num
  rw [h1, h2]

/-- The out-of-range path of `tropmapfHpf`: 0.0 is returned and stored if a slot
is supplied. -/
theorem tropmapfHpf_rejected (L : MathEnv F) (log : List (TraceRec F)) (time : gtime_t F)
    (pos : Fin 3 → Dbl F) (azel : Fin 2 → Dbl F) (mapfw : Option (Dbl F))
    (h : pos 2 < Dbl.num (-1000) ∨ Dbl.num 20000 < pos 2) :
    ∃ log2, tropmapfHpf L log time pos azel mapfw =
      Outcome.ret (Dbl.num 0) (storeIfSupplied mapfw (Dbl.num 0)) log2 := by
  have h0 : (0.0 : Dbl F) = Dbl.num 0 := by
    simp only [Dbl.ofScientific_eq]; norm_num
  unfold tropmapfHpf
  simp only []
  rw [if_pos ((tropmapfHpf_test_iff pos).2 h), h0]
  exact ⟨_, rfl⟩

/-- The in-range path of `tropmapfHpf` with a slot supplied. -/
theorem tropmapfHpf_accepted_some (L : MathEnv F) (log : List (TraceRec F)) (time : gtime_t F)
    (pos : Fin 3 → Dbl F) (azel : Fin 2 → Dbl F) (w0 : Dbl F)
    (h : ¬ (pos 2 < Dbl.num (-1000) ∨ Dbl.num 20000 < pos 2)) :
    ∃ log2, tropmapfHpf L log time pos azel (some w0) =
      Outcome.ret
        (Dbl.num 1 / Dbl.sin L (Dbl.sqrt L (azel 1 ^ 2 + (Dbl.num L.PI / Dbl.num 72) ^ 2)))
        (some (Dbl.num 1 /
          Dbl.sin L (Dbl.sqrt L (azel 1 ^ 2 + (Dbl.num L.PI / Dbl.num 120) ^ 2)))) log2 := by
  have h1 : (1.0 : Dbl F) = Dbl.num 1 := by
    simp only [Dbl.ofScientific_eq]; norm_num
  have h72 : (72.0 : Dbl F) = Dbl.num 72 := by
    simp only [Dbl.ofScientific_eq]; norm_num
  have h120 : (120.0 : Dbl F) = Dbl.num 120 := by
    simp only [Dbl.ofScientific_eq]; norm_num
  unfold tropmapfHpf
  simp only []
  rw [if_neg (fun hc => h ((tropmapfHpf_test_iff pos).1 hc)), h1, h72, h120]
  exact ⟨_, rfl⟩

/-- The in-range path of `tropmapfHpf` without a slot: the write of line 66 faults. -/
theorem tropmapfHpf_accepted_none (L : MathEnv F) (log : List (TraceRec F)) (time : gtime_t F)
    (pos : Fin 3 → Dbl F) (azel : Fin 2 → Dbl F)
    (h : ¬ (pos 2 < Dbl.num (-1000) ∨ Dbl.num 20000 < pos 2)) :
    ∃ log2, tropmapfHpf L log time pos azel none = Outcome.fault log2 := by
  unfold tropmapfHpf
  simp only []
  rw [if_neg (fun hc => h ((tropmapfHpf_test_iff pos).1 hc))]
  exact ⟨_, rfl⟩

/-- The height test of `tropmapfHpf` in the terms of the claims: a height that
is a number passes it exactly when it lies within `[-1000, 20000]`. -/
theorem tropmapfHpf_test_num (h : F) :
    ¬ (Dbl.num h < Dbl.num (-1000) ∨ Dbl.num 20000 < Dbl.num h) ↔
      (Dbl.num (-1000) ≤ Dbl.num h ∧ Dbl.num h ≤ Dbl.num 20000) := by
  simp only [Dbl.num_lt_num, Dbl.num_le_num, not_or, not_lt]

/-- The square root of a number that is not negative. -/
theorem Dbl.sqrt_num_of_nonneg (L : MathEnv F) {x : F} (hx : 0 ≤ x) :
    Dbl.sqrt L (Dbl.num x) = Dbl.num (L.sqrt x) := by
  show (if x < 0 then Dbl.nan else Dbl.num (L.sqrt x)) = _
  rw [if_neg (not_lt.2 hx)]

/-- The mapping factor at a numeric elevation, as a number, when the sine in the
denominator is not zero. -/
theorem mapf_num (L : MathEnv F) (el c : F) (hc : c ≠ 0)
    (hs : L.sin (L.sqrt (el ^ 2 + (L.PI / c) ^ 2)) ≠ 0) :
    Dbl.num 1 / Dbl.sin L (Dbl.sqrt L (Dbl.num el ^ 2 + (Dbl.num L.PI / Dbl.num c) ^ 2)) =
      Dbl.num (1 / L.sin (L.sqrt (el ^ 2 + (L.PI / c) ^ 2))) := by
  rw [Dbl.num_div_num_of_ne _ hc, Dbl.num_pow, Dbl.num_pow, Dbl.num_add_num,
    Dbl.sqrt_num_of_nonneg L (by positivity)]
  show Dbl.num 1 / Dbl.num (L.sin _) = _
  rw [Dbl.num_div_num_of_ne _ hs]

/-- The exact fault condition of `tropmapfHpf`: the slot is absent and the height
test of line 60 fails. -/
theorem tropmapfHpf_faults_iff (L : MathEnv F) (log : List (TraceRec F))
    (time : gtime_t F) (pos : Fin 3 → Dbl F) (azel : Fin 2 → Dbl F) (mapfw : Option (Dbl F)) :
    (tropmapfHpf L log time pos azel mapfw).faults = true ↔
      (mapfw = none ∧ ¬ (pos 2 < Dbl.num (-1000) ∨ Dbl.num 20000 < pos 2)) := by
  by_cases hc : pos 2 < Dbl.num (-1000) ∨ Dbl.num 20000 < pos 2
  · obtain ⟨log2, h2⟩ := tropmapfHpf_rejected L log time pos azel mapfw hc
    rw [h2]
    simp [Outcome.faults, hc]
  · cases mapfw with
    | none =>
      obtain ⟨log2, h2⟩ := tropmapfHpf_accepted_none L log time pos azel hc
      rw [h2]
      simp [Outcome.faults, hc]
    | some w0 =>
      obtain ⟨log2, h2⟩ := tropmapfHpf_accepted_some L log time pos azel w0 hc
      rw [h2]
      simp [Outcome.faults]

end Mapping

/-- Over the reals the sine of the offset angle `sqrt(el^2 + c^2)` is positive as
long as the angle stays below π. -/
theorem real_sin_offset_pos (el c : ℝ) (hc : 0 < c) (h : el ^ 2 + c ^ 2 < Real.pi ^ 2) :
    0 < Real.sin (Real.sqrt (el ^ 2 + c ^ 2)) := by
  apply Real.sin_pos_of_pos_of_lt_pi
  · exact Real.sqrt_pos.2 (by positivity)
  · rw [Real.sqrt_lt' Real.pi_pos]
    exact h

section MappingClaims

variable {F : Type} [LinearOrderedField F]

/-- C7: for every call of `tropmapfHpf` with the height within `[-1000, 20000]`
and a wet-map slot supplied, the return value is `1/sin(sqrt(el^2 + (PI/72)^2))`
and the slot is set to `1/sin(sqrt(el^2 + (PI/120)^2))`, with `el = azel[1]`;
neither depends on the height. -/
theorem tropmapfHpf_in_range_values (L : MathEnv F) (log : List (TraceRec F))
    (time : gtime_t F) (pos : Fin 3 → Dbl F) (azel : Fin 2 → Dbl F) (w0 : Dbl F)
    (hlo : Dbl.num (-1000) ≤ pos 2) (hhi : pos 2 ≤ Dbl.num 20000) :
    (tropmapfHpf L log time pos azel (some w0)).val? =
        some (Dbl.num 1 /
          Dbl.sin L (Dbl.sqrt L (azel 1 ^ 2 + (Dbl.num L.PI / Dbl.num 72) ^ 2))) ∧
      (tropmapfHpf L log time pos azel (some w0)).out? =
        some (Dbl.num 1 /
          Dbl.sin L (Dbl.sqrt L (azel 1 ^ 2 + (Dbl.num L.PI / Dbl.num 120) ^ 2))) := by
  have hv : ¬ (pos 2 < Dbl.num (-1000) ∨ Dbl.num 20000 < pos 2) := by
    rintro (h | h)
    · exact Dbl.not_lt_of_le hlo h
    · exact Dbl.not_lt_of_le hhi h
  obtain ⟨log2, h2⟩ := tropmapfHpf_accepted_some L log time pos azel w0 hv
  rw [h2]
  exact ⟨rfl, rfl⟩

/-- Witness over the reals at position `{0, 0, 0}` and elevation 10 degrees:
the dry factor is the number `1/sin(sqrt(el^2 + (π/72)^2))`, the wet factor the
number `1/sin(sqrt(el^2 + (π/120)^2))`. -/
theorem tropmapfHpf_in_range_values_witness :
    (tropmapfHpf realEnv [] (gtime_t.mk 0 (Dbl.num 0)) ![Dbl.num 0, Dbl.num 0, Dbl.num 0]
        ![Dbl.num 0, Dbl.num (10 * Real.pi / 180)] (some (Dbl.num 0))).val? =
      some (Dbl.num (1 / Real.sin (Real.sqrt ((10 * Real.pi / 180) ^ 2 + (Real.pi / 72) ^ 2)))) ∧
    (tropmapfHpf realEnv [] (gtime_t.mk 0 (Dbl.num 0)) ![Dbl.num 0, Dbl.num 0, Dbl.num 0]
        ![Dbl.num 0, Dbl.num (10 * Real.pi / 180)] (some (Dbl.num 0))).out? =
      some (Dbl.num (1 / Real.sin (Real.sqrt ((10 * Real.pi / 180) ^ 2 + (Real.pi / 120) ^ 2)))) := by
  have h := tropmapfHpf_in_range_values realEnv [] (gtime_t.mk 0 (Dbl.num 0))
    ![Dbl.num 0, Dbl.num 0, Dbl.num 0] ![Dbl.num 0, Dbl.num (10 * Real.pi / 180)] (Dbl.num 0)
    (by norm_num) (by norm_num)
  have hpi := Real.pi_pos
  have hd : Real.sin (Real.sqrt ((10 * Real.pi / 180) ^ 2 + (Real.pi / 72) ^ 2)) ≠ 0 :=
    ne_of_gt (real_sin_offset_pos _ _ (by positivity) (by nlinarith))
  have hw : Real.sin (Real.sqrt ((10 * Real.pi / 180) ^ 2 + (Real.pi / 120) ^ 2)) ≠ 0 :=
    ne_of_gt (real_sin_offset_pos _ _ (by positivity) (by nlinarith))
  rw [h.1, h.2]
  exact ⟨congrArg some (mapf_num realEnv (10 * Real.pi / 180) 72 (by norm_num) hd),
    congrArg some (mapf_num realEnv (10 * Real.pi / 180) 120 (by norm_num) hw)⟩

/-- C8: for every height `pos[2] < -1000` or `pos[2] > 20000`, `tropmapfHpf`
returns 0.0 and sets a supplied wet-map slot to 0.0, for every elevation. -/
theorem tropmapfHpf_out_of_range_zero (L : MathEnv F) (log : List (TraceRec F))
    (time : gtime_t F) (pos : Fin 3 → Dbl F) (azel : Fin 2 → Dbl F) (w0 : Dbl F)
    (hh : pos 2 < Dbl.num (-1000) ∨ Dbl.num 20000 < pos 2) :
    (tropmapfHpf L log time pos azel (some w0)).val? = some (Dbl.num 0) ∧
      (tropmapfHpf L log time pos azel (some w0)).out? = some (Dbl.num 0) := by
  obtain ⟨log2, h2⟩ := tropmapfHpf_rejected L log time pos azel (some w0) hh
  rw [h2]
  exact ⟨rfl, rfl⟩

/-- Witness over the reals at height 20001 m, the slot holding 5 before. -/
theorem tropmapfHpf_out_of_range_zero_witness :
    (tropmapfHpf realEnv [] (gtime_t.mk 0 (Dbl.num 0)) ![Dbl.num 0, Dbl.num 0, Dbl.num 20001]
        ![Dbl.num 0, Dbl.num 1] (some (Dbl.num 5))).val? = some (Dbl.num 0) ∧
    (tropmapfHpf realEnv [] (gtime_t.mk 0 (Dbl.num 0)) ![Dbl.num 0, Dbl.num 0, Dbl.num 20001]
        ![Dbl.num 0, Dbl.num 1] (some (Dbl.num 5))).out? = some (Dbl.num 0) :=
  tropmapfHpf_out_of_range_zero realEnv [] (gtime_t.mk 0 (Dbl.num 0))
    ![Dbl.num 0, Dbl.num 0, Dbl.num 20001] ![Dbl.num 0, Dbl.num 1] (Dbl.num 5)
    (Or.inr (by norm_num))

/-- C9: for every height `pos[2] < -1000` or `pos[2] > 20000`, a call of
`tropmapfHpf` with the wet-map slot absent does not fault and returns 0.0. -/
theorem tropmapfHpf_out_of_range_null_safe (L : MathEnv F) (log : List (TraceRec F))
    (time : gtime_t F) (pos : Fin 3 → Dbl F) (azel : Fin 2 → Dbl F)
    (hh : pos 2 < Dbl.num (-1000) ∨ Dbl.num 20000 < pos 2) :
    (tropmapfHpf L log time pos azel none).faults = false ∧
      (tropmapfHpf L log time pos azel none).val? = some (Dbl.num 0) := by
  obtain ⟨log2, h2⟩ := tropmapfHpf_rejected L log time pos azel none hh
  rw [h2]
  exact ⟨rfl, rfl⟩

/-- Witness over the reals at height -1001 m without a slot. -/
theorem tropmapfHpf_out_of_range_null_safe_witness :
    (tropmapfHpf realEnv [] (gtime_t.mk 0 (Dbl.num 0)) ![Dbl.num 0, Dbl.num 0, Dbl.num (-1001)]
        ![Dbl.num 0, Dbl.num 1] none).faults = false ∧
    (tropmapfHpf realEnv [] (gtime_t.mk 0 (Dbl.num 0)) ![Dbl.num 0, Dbl.num 0, Dbl.num (-1001)]
        ![Dbl.num 0, Dbl.num 1] none).val? = some (Dbl.num 0) :=
  tropmapfHpf_out_of_range_null_safe realEnv [] (gtime_t.mk 0 (Dbl.num 0))
    ![Dbl.num 0, Dbl.num 0, Dbl.num (-1001)] ![Dbl.num 0, Dbl.num 1]
    (Or.inl (by norm_num))

/-- Counterexample at a height that is not a number: with the slot absent
and `pos[2]` a NaN, the height test of line 60 is false, the write of line 66
faults, and yet `-1000 <= pos[2] <= 20000` does not hold. -/
theorem tropmapfHpf_fault_nan_height :
    (tropmapfHpf realEnv [] (gtime_t.mk 0 (Dbl.num 0)) ![Dbl.num 0, Dbl.num 0, Dbl.nan]
        ![Dbl.num 0, Dbl.num 1] none).faults = true ∧
      ¬ ((none : Option (Dbl ℝ)) = none ∧
          Dbl.num (-1000) ≤ (![Dbl.num 0, Dbl.num 0, Dbl.nan] : Fin 3 → Dbl ℝ) 2 ∧
          (![Dbl.num 0, Dbl.num 0, Dbl.nan] : Fin 3 → Dbl ℝ) 2 ≤ Dbl.num 20000) := by
  constructor
  · obtain ⟨log2, h2⟩ := tropmapfHpf_accepted_none realEnv [] (gtime_t.mk 0 (Dbl.num 0))
      ![Dbl.num 0, Dbl.num 0, Dbl.nan] ![Dbl.num 0, Dbl.num 1] (by simp)
    rw [h2]
    rfl
  · simp

/-- C10, amended: for every height that is a number, `tropmapfHpf` faults if and
only if the wet-map slot is absent and `-1000 <= pos[2] <= 20000`; when it faults
no value is returned, and in every other case a value is returned. -/
theorem tropmapfHpf_fault_iff_in_range (L : MathEnv F) (log : List (TraceRec F))
    (time : gtime_t F) (pos : Fin 3 → Dbl F) (azel : Fin 2 → Dbl F) (mapfw : Option (Dbl F))
    (h : F) (hp : pos 2 = Dbl.num h) :
    ((tropmapfHpf L log time pos azel mapfw).faults = true ↔
        (mapfw = none ∧ Dbl.num (-1000) ≤ pos 2 ∧ pos 2 ≤ Dbl.num 20000)) ∧
      ((tropmapfHpf L log time pos azel mapfw).faults = true →
        (tropmapfHpf L log time pos azel mapfw).val? = none) ∧
      ((tropmapfHpf L log time pos azel mapfw).faults = false →
        ∃ v, (tropmapfHpf L log time pos azel mapfw).val? = some v) := by
  refine ⟨?_, ?_, ?_⟩
  · rw [tropmapfHpf_faults_iff, hp, tropmapfHpf_test_num]
  · cases hr : tropmapfHpf L log time pos azel mapfw <;> simp [Outcome.faults, Outcome.val?]
  · cases hr : tropmapfHpf L log time pos azel mapfw <;> simp [Outcome.faults, Outcome.val?]

/-- Witness over the reals at height 0 m without a slot: the call faults and
returns no value. -/
theorem tropmapfHpf_fault_iff_in_range_witness :
    (tropmapfHpf realEnv [] (gtime_t.mk 0 (Dbl.num 0)) ![Dbl.num 0, Dbl.num 0, Dbl.num 0]
        ![Dbl.num 0, Dbl.num 1] none).faults = true ∧
    (tropmapfHpf realEnv [] (gtime_t.mk 0 (Dbl.num 0)) ![Dbl.num 0, Dbl.num 0, Dbl.num 0]
        ![Dbl.num 0, Dbl.num 1] none).val? = none := by
  have h := tropmapfHpf_fault_iff_in_range realEnv [] (gtime_t.mk 0 (Dbl.num 0))
    ![Dbl.num 0, Dbl.num 0, Dbl.num 0] ![Dbl.num 0, Dbl.num 1] none 0 rfl
  have hf := h.1.2 ⟨rfl, by norm_num, by norm_num⟩
  exact ⟨hf, h.2.1 hf⟩

end MappingClaims

/-! ## The optional output and the unused arguments -/

/-- The slot after `if (p) *p = v;` depends on the slot before only through
whether it is supplied. -/
theorem storeIfSupplied_congr {F : Type} {p q : Option (Dbl F)} (h : p.isSome = q.isSome)
    (v : Dbl F) : storeIfSupplied p v = storeIfSupplied q v := by
  cases p <;> cases q <;> simp [storeIfSupplied] at h ⊢

section Interface

variable {F : Type} [LinearOrderedField F]

/-- The outcome of `tropmodelHpf` does not depend on the trace log it is given,
except for the log it hands back, which is the one it was given. -/
theorem tropmodelHpf_log_free (log : List (TraceRec F)) (time : gtime_t F)
    (pos : Fin 3 → Dbl F) (azel : Fin 2 → Dbl F) (humi : Dbl F) (zwd : Option (Dbl F)) :
    ∃ v o, ∀ lg : List (TraceRec F),
      tropmodelHpf lg time pos azel humi zwd = Outcome.ret v o lg := by
  by_cases hc : pos 2 < Dbl.num (-100) ∨ Dbl.num 10000 < pos 2 ∨ azel 1 ≤ Dbl.num 0
  · exact ⟨_, _, fun lg => tropmodelHpf_rejected lg time pos azel humi zwd hc⟩
  · exact ⟨_, _, fun lg => tropmodelHpf_accepted lg time pos azel humi zwd hc⟩

end Interface

section InterfaceClaims

variable {F : Type} [LinearOrderedField F]

/-- C11: the header of `tropmapfHpf` documents `mapfw` as optional (`NULL: not
output`), but the code does not honour it: at height 100 m and elevation 1/2 rad
the call without a slot faults at the write of line 66 and returns no value,
while the call with a slot returns. -/
theorem tropmapfHpf_null_slot_faults :
    (tropmapfHpf realEnv [] (gtime_t.mk 0 (Dbl.num 0)) ![Dbl.num 0, Dbl.num 0, Dbl.num 100]
        ![Dbl.num 0, Dbl.num (1 / 2)] none).faults = true ∧
    (tropmapfHpf realEnv [] (gtime_t.mk 0 (Dbl.num 0)) ![Dbl.num 0, Dbl.num 0, Dbl.num 100]
        ![Dbl.num 0, Dbl.num (1 / 2)] none).val? = none ∧
    (tropmapfHpf realEnv [] (gtime_t.mk 0 (Dbl.num 0)) ![Dbl.num 0, Dbl.num 0, Dbl.num 100]
        ![Dbl.num 0, Dbl.num (1 / 2)] (some (Dbl.num 0))).faults = false := by
  have hv : ¬ ((![Dbl.num 0, Dbl.num 0, Dbl.num 100] : Fin 3 → Dbl ℝ) 2 < Dbl.num (-1000) ∨
      Dbl.num 20000 < (![Dbl.num 0, Dbl.num 0, Dbl.num 100] : Fin 3 → Dbl ℝ) 2) := by
    norm_num
  obtain ⟨l1, h1⟩ := tropmapfHpf_accepted_none realEnv [] (gtime_t.mk 0 (Dbl.num 0))
    ![Dbl.num 0, Dbl.num 0, Dbl.num 100] ![Dbl.num 0, Dbl.num (1 / 2)] hv
  obtain ⟨l2, h2⟩ := tropmapfHpf_accepted_some realEnv [] (gtime_t.mk 0 (Dbl.num 0))
    ![Dbl.num 0, Dbl.num 0, Dbl.num 100] ![Dbl.num 0, Dbl.num (1 / 2)] (Dbl.num 0) hv
  rw [h1, h2]
  exact ⟨rfl, rfl, rfl⟩

/-- C15: latitude, longitude, azimuth and time do not influence the numeric
results.  Two calls of `tropmodelHpf` that agree on height, elevation, humidity
and on whether the slot is supplied return the same value, and either leave the
same value in the slot or both leave their slot as it was; two such calls of
`tropmapfHpf` return the same value, leave the same value in the slot, and fault
alike. -/
theorem results_ignore_latlon_azimuth_time (L : MathEnv F) (log : List (TraceRec F))
    (time1 time2 : gtime_t F) (pos1 pos2 : Fin 3 → Dbl F) (azel1 azel2 : Fin 2 → Dbl F)
    (humi : Dbl F) (zwd1 zwd2 mapfw1 mapfw2 : Option (Dbl F))
    (hh : pos1 2 = pos2 2) (he : azel1 1 = azel2 1)
    (hz : zwd1.isSome = zwd2.isSome) (hm : mapfw1.isSome = mapfw2.isSome) :
    ((tropmodelHpf log time1 pos1 azel1 humi zwd1).val? =
          (tropmodelHpf log time2 pos2 azel2 humi zwd2).val? ∧
        ((tropmodelHpf log time1 pos1 azel1 humi zwd1).out? =
            (tropmodelHpf log time2 pos2 azel2 humi zwd2).out? ∨
          ((tropmodelHpf log time1 pos1 azel1 humi zwd1).out? = zwd1 ∧
            (tropmodelHpf log time2 pos2 azel2 humi zwd2).out? = zwd2))) ∧
      ((tropmapfHpf L log time1 pos1 azel1 mapfw1).val? =
          (tropmapfHpf L log time2 pos2 azel2 mapfw2).val? ∧
        (tropmapfHpf L log time1 pos1 azel1 mapfw1).out? =
          (tropmapfHpf L log time2 pos2 azel2 mapfw2).out? ∧
        (tropmapfHpf L log time1 pos1 azel1 mapfw1).faults =
          (tropmapfHpf L log time2 pos2 azel2 mapfw2).faults) := by
  constructor
  · by_cases hc : pos1 2 < Dbl.num (-100) ∨ Dbl.num 10000 < pos1 2 ∨ azel1 1 ≤ Dbl.num 0
    · have hc2 : pos2 2 < Dbl.num (-100) ∨ Dbl.num 10000 < pos2 2 ∨ azel2 1 ≤ Dbl.num 0 := by
        rw [← hh, ← he]; exact hc
      rw [tropmodelHpf_rejected log time1 pos1 azel1 humi zwd1 hc,
        tropmodelHpf_rejected log time2 pos2 azel2 humi zwd2 hc2]
      exact ⟨rfl, Or.inr ⟨rfl, rfl⟩⟩
    · have hc2 : ¬ (pos2 2 < Dbl.num (-100) ∨ Dbl.num 10000 < pos2 2 ∨ azel2 1 ≤ Dbl.num 0) := by
        rw [← hh, ← he]; exact hc
      rw [tropmodelHpf_accepted log time1 pos1 azel1 humi zwd1 hc,
        tropmodelHpf_accepted log time2 pos2 azel2 humi zwd2 hc2]
      exact ⟨rfl, Or.inl (storeIfSupplied_congr hz _)⟩
  · by_cases hc : pos1 2 < Dbl.num (-1000) ∨ Dbl.num 20000 < pos1 2
    · have hc2 : pos2 2 < Dbl.num (-1000) ∨ Dbl.num 20000 < pos2 2 := by
        rw [← hh]; exact hc
      obtain ⟨l1, h1⟩ := tropmapfHpf_rejected L log time1 pos1 azel1 mapfw1 hc
      obtain ⟨l2, h2⟩ := tropmapfHpf_rejected L log time2 pos2 azel2 mapfw2 hc2
      rw [h1, h2]
      exact ⟨rfl, storeIfSupplied_congr hm _, rfl⟩
    · have hc2 : ¬ (pos2 2 < Dbl.num (-1000) ∨ Dbl.num 20000 < pos2 2) := by
        rw [← hh]; exact hc
      cases mapfw1 with
      | none =>
        cases mapfw2 with
        | none =>
          obtain ⟨l1, h1⟩ := tropmapfHpf_accepted_none L log time1 pos1 azel1 hc
          obtain ⟨l2, h2⟩ := tropmapfHpf_accepted_none L log time2 pos2 azel2 hc2
          rw [h1, h2]
          exact ⟨rfl, rfl, rfl⟩
        | some w2 => simp at hm
      | some w1 =>
        cases mapfw2 with
        | none => simp at hm
        | some w2 =>
          obtain ⟨l1, h1⟩ := tropmapfHpf_accepted_some L log time1 pos1 azel1 w1 hc
          obtain ⟨l2, h2⟩ := tropmapfHpf_accepted_some L log time2 pos2 azel2 w2 hc2
          rw [h1, h2, he]
          exact ⟨rfl, rfl, rfl⟩

/-- Witness over the reals: height 100 m, elevation 1/2 rad, humidity 0.7 and
supplied slots in both calls; latitude, longitude, azimuth, time and the values
held by the slots differ. -/
theorem results_ignore_latlon_azimuth_time_witness :
    (tropmodelHpf ([] : List (TraceRec ℝ)) (gtime_t.mk 0 (Dbl.num 0))
        ![Dbl.num (3 / 5), Dbl.num 2, Dbl.num 100]
        ![Dbl.num 1, Dbl.num (1 / 2)] (Dbl.num (7 / 10)) (some (Dbl.num 1))).val? =
      (tropmodelHpf [] (gtime_t.mk 86400 (Dbl.num (1 / 2)))
        ![Dbl.num (-1), Dbl.num 0, Dbl.num 100]
        ![Dbl.num 3, Dbl.num (1 / 2)] (Dbl.num (7 / 10)) (some (Dbl.num 2))).val? ∧
    (tropmapfHpf realEnv [] (gtime_t.mk 0 (Dbl.num 0))
        ![Dbl.num (3 / 5), Dbl.num 2, Dbl.num 100]
        ![Dbl.num 1, Dbl.num (1 / 2)] (some (Dbl.num 1))).out? =
      (tropmapfHpf realEnv [] (gtime_t.mk 86400 (Dbl.num (1 / 2)))
        ![Dbl.num (-1), Dbl.num 0, Dbl.num 100]
        ![Dbl.num 3, Dbl.num (1 / 2)] (some (Dbl.num 2))).out? :=
  have h := results_ignore_latlon_azimuth_time realEnv [] (gtime_t.mk 0 (Dbl.num 0))
    (gtime_t.mk 86400 (Dbl.num (1 / 2))) ![Dbl.num (3 / 5), Dbl.num 2, Dbl.num 100]
    ![Dbl.num (-1), Dbl.num 0, Dbl.num 100] ![Dbl.num 1, Dbl.num (1 / 2)]
    ![Dbl.num 3, Dbl.num (1 / 2)] (Dbl.num (7 / 10)) (some (Dbl.num 1)) (some (Dbl.num 2))
    (some (Dbl.num 1)) (some (Dbl.num 2)) rfl rfl rfl rfl
  ⟨h.1.1, h.2.2.1⟩

/-- C20: the dry zenith delay that `tropmodelHpf` returns on its valid path is
the number `(77.6e-6 * (-613.3768/291.1 + 148.98) * 1010.0)/5.0`, which is
strictly positive and lies between 2.30 and 2.31. -/
theorem tropmodelHpf_dry_delay_near_two (log : List (TraceRec F)) (time : gtime_t F)
    (pos : Fin 3 → Dbl F) (azel : Fin 2 → Dbl F) (humi : Dbl F) (zwd : Option (Dbl F))
    (hlo : Dbl.num (-100) ≤ pos 2) (hhi : pos 2 ≤ Dbl.num 10000) (hel : Dbl.num 0 < azel 1) :
    ∃ c : F, (tropmodelHpf log time pos azel humi zwd).val? = some (Dbl.num c) ∧
      c = (77.6e-6 * (-613.3768 / 291.1 + 148.98) * 1010.0) / 5.0 ∧
      0 < c ∧ 2.30 < c ∧ c < 2.31 := by
  refine ⟨(77.6e-6 * (-613.3768 / 291.1 + 148.98) * 1010.0) / 5.0, ?_, rfl, ?_, ?_, ?_⟩
  · rw [tropmodelHpf_accepted log time pos azel humi zwd (tropmodelHpf_not_rejected hlo hhi hel)]
    rfl
  · norm_num
  · norm_num
  · norm_num

/-- Witness at height 2500 m and elevation 1 rad: the returned number lies
between 2.30 and 2.31. -/
theorem tropmodelHpf_dry_delay_near_two_witness :
    ∃ c : ℚ, (tropmodelHpf [] (gtime_t.mk 0 (Dbl.num 0))
        ![Dbl.num 0, Dbl.num 0, Dbl.num 2500] ![Dbl.num 0, Dbl.num 1]
        (Dbl.num (1 / 2)) none).val? = some (Dbl.num c) ∧ 2.30 < c ∧ c < 2.31 := by
  obtain ⟨c, h1, _, _, h2, h3⟩ := tropmodelHpf_dry_delay_near_two ([] : List (TraceRec ℚ))
    (gtime_t.mk 0 (Dbl.num 0)) ![Dbl.num 0, Dbl.num 0, Dbl.num 2500] ![Dbl.num 0, Dbl.num 1]
    (Dbl.num (1 / 2)) none (by norm_num) (by norm_num) (by norm_num)
  exact ⟨c, h1, h2, h3⟩

end InterfaceClaims

/-! ## The mapping factors over the reals -/

section RealMapping

open Real

/-- The dry factor of `tropmapfHpf` over the reals at a numeric elevation, when
the sine in its denominator is not zero. -/
theorem tropmapfHpf_real_dry (log : List (TraceRec ℝ)) (time : gtime_t ℝ)
    (pos : Fin 3 → Dbl ℝ) (azel : Fin 2 → Dbl ℝ) (w0 : Dbl ℝ) (el : ℝ)
    (hlo : Dbl.num (-1000) ≤ pos 2) (hhi : pos 2 ≤ Dbl.num 20000) (he : azel 1 = Dbl.num el)
    (hd : sin (√(el ^ 2 + (π / 72) ^ 2)) ≠ 0) :
    (tropmapfHpf realEnv log time pos azel (some w0)).val? =
      some (Dbl.num (1 / sin (√(el ^ 2 + (π / 72) ^ 2)))) := by
  have hv : ¬ (pos 2 < Dbl.num (-1000) ∨ Dbl.num 20000 < pos 2) := by
    rintro (h | h)
    · exact Dbl.not_lt_of_le hlo h
    · exact Dbl.not_lt_of_le hhi h
  obtain ⟨log2, h2⟩ := tropmapfHpf_accepted_some realEnv log time pos azel w0 hv
  rw [h2, he]
  exact congrArg some (mapf_num realEnv el 72 (by norm_num) hd)

/-- The wet factor of `tropmapfHpf` over the reals at a numeric elevation, when
the sine in its denominator is not zero. -/
theorem tropmapfHpf_real_wet (log : List (TraceRec ℝ)) (time : gtime_t ℝ)
    (pos : Fin 3 → Dbl ℝ) (azel : Fin 2 → Dbl ℝ) (w0 : Dbl ℝ) (el : ℝ)
    (hlo : Dbl.num (-1000) ≤ pos 2) (hhi : pos 2 ≤ Dbl.num 20000) (he : azel 1 = Dbl.num el)
    (hw : sin (√(el ^ 2 + (π / 120) ^ 2)) ≠ 0) :
    (tropmapfHpf realEnv log time pos azel (some w0)).out? =
      some (Dbl.num (1 / sin (√(el ^ 2 + (π / 120) ^ 2)))) := by
  have hv : ¬ (pos 2 < Dbl.num (-1000) ∨ Dbl.num 20000 < pos 2) := by
    rintro (h | h)
    · exact Dbl.not_lt_of_le hlo h
    · exact Dbl.not_lt_of_le hhi h
  obtain ⟨log2, h2⟩ := tropmapfHpf_accepted_some realEnv log time pos azel w0 hv
  rw [h2, he]
  exact congrArg some (mapf_num realEnv el 120 (by norm_num) hw)

/-- For an elevation within a right angle of the horizon and an offset of at most
a right angle, the offset angle stays below π. -/
theorem offset_sq_lt_pi_sq (el c : ℝ) (hel : |el| ≤ π / 2) (hc0 : 0 < c) (hc : c ≤ π / 2) :
    el ^ 2 + c ^ 2 < π ^ 2 := by
  have hpi := pi_pos
  have h1 : el ^ 2 ≤ (π / 2) ^ 2 := by
    rw [← sq_abs el]
    exact pow_le_pow_left₀ (abs_nonneg el) hel 2
  have h2 : c ^ 2 ≤ (π / 2) ^ 2 := pow_le_pow_left₀ hc0.le hc 2
  nlinarith

/-- The sine in the denominator of either factor is positive for every elevation
within a right angle of the horizon. -/
theorem sin_offset_pos_of_abs_le (el c : ℝ) (hel : |el| ≤ π / 2) (hc0 : 0 < c)
    (hc : c ≤ π / 2) : 0 < sin (√(el ^ 2 + c ^ 2)) :=
  real_sin_offset_pos el c hc0 (offset_sq_lt_pi_sq el c hel hc0 hc)

/-- The two offsets of the code are positive and below a right angle. -/
theorem offsets_small : (0 : ℝ) < π / 72 ∧ π / 72 ≤ π / 2 ∧ (0 : ℝ) < π / 120 ∧ π / 120 ≤ π / 2 := by
  have hpi := pi_pos
  refine ⟨by positivity, by linarith, by positivity, by linarith⟩

/-- A factor `1/sin(sqrt(el^2 + c^2))` is at least 1 wherever its sine is
positive. -/
theorem one_le_factor (el c : ℝ) (h : 0 < sin (√(el ^ 2 + c ^ 2))) :
    1 ≤ 1 / sin (√(el ^ 2 + c ^ 2)) :=
  one_le_one_div h (sin_le_one _)

/-- As long as the offset angle stays at or below a right angle, the real number
`1/sin(sqrt(el^2 + c^2))` strictly decreases with the real elevation. -/
theorem factor_strictAnti (c e1 e2 : ℝ) (hc : 0 < c) (h0 : 0 ≤ e1) (h12 : e1 < e2)
    (h2 : e2 ^ 2 + c ^ 2 ≤ (π / 2) ^ 2) :
    1 / sin (√(e2 ^ 2 + c ^ 2)) < 1 / sin (√(e1 ^ 2 + c ^ 2)) := by
  have hpi := pi_pos
  have hsq : e1 ^ 2 < e2 ^ 2 := pow_lt_pow_left₀ h12 h0 (by norm_num)
  have hlt : √(e1 ^ 2 + c ^ 2) < √(e2 ^ 2 + c ^ 2) :=
    sqrt_lt_sqrt (by positivity) (by linarith)
  have hle : √(e2 ^ 2 + c ^ 2) ≤ π / 2 := by
    rw [sqrt_le_left (by positivity)]
    exact h2
  have hpos : 0 < √(e1 ^ 2 + c ^ 2) := sqrt_pos.2 (by positivity)
  have hs1 : 0 < sin (√(e1 ^ 2 + c ^ 2)) :=
    sin_pos_of_pos_of_lt_pi hpos (by linarith)
  have hs : sin (√(e1 ^ 2 + c ^ 2)) < sin (√(e2 ^ 2 + c ^ 2)) :=
    sin_lt_sin_of_lt_of_le_pi_div_two (by linarith) hle hlt
  exact one_div_lt_one_div_of_lt hs1 hs

/-- An elevation in `[0, sqrt((π/2)^2 - c^2)]` keeps the offset angle at or below
a right angle. -/
theorem offset_le_right_angle (c e : ℝ) (hc : c ≤ π / 2) (hc0 : 0 ≤ c) (h0 : 0 ≤ e)
    (he : e ≤ √((π / 2) ^ 2 - c ^ 2)) : e ^ 2 + c ^ 2 ≤ (π / 2) ^ 2 := by
  have hA : 0 ≤ (π / 2) ^ 2 - c ^ 2 := sub_nonneg.2 (pow_le_pow_left₀ hc0 hc 2)
  have h1 : e ^ 2 ≤ √((π / 2) ^ 2 - c ^ 2) ^ 2 := pow_le_pow_left₀ h0 he 2
  rw [sq_sqrt hA] at h1
  linarith

/-- At the elevation `sqrt((π/2)^2 - c^2)` the offset angle is the right angle
and the factor is exactly 1. -/
theorem factor_at_right_angle (c : ℝ) (hc : c ≤ π / 2) (hc0 : 0 ≤ c) :
    sin (√(√((π / 2) ^ 2 - c ^ 2) ^ 2 + c ^ 2)) = 1 := by
  have hpi := pi_pos
  have hA : 0 ≤ (π / 2) ^ 2 - c ^ 2 := sub_nonneg.2 (pow_le_pow_left₀ hc0 hc 2)
  rw [sq_sqrt hA, sub_add_cancel, sqrt_sq (by positivity), sin_pi_div_two]

/-- At the zenith the offset angle is beyond the right angle: the sine is
positive and below 1. -/
theorem sin_zenith_lt_one (c : ℝ) (hc0 : 0 < c) (hc : c ≤ π / 2) :
    0 < sin (√((π / 2) ^ 2 + c ^ 2)) ∧ sin (√((π / 2) ^ 2 + c ^ 2)) < 1 := by
  have hpi := pi_pos
  have hlt : (π / 2) ^ 2 + c ^ 2 < π ^ 2 :=
    offset_sq_lt_pi_sq (π / 2) c (by rw [abs_of_pos (by positivity)]) hc0 hc
  have hθ : √((π / 2) ^ 2 + c ^ 2) < π := by
    rw [sqrt_lt' hpi]
    exact hlt
  have hgt : π / 2 < √((π / 2) ^ 2 + c ^ 2) := by
    apply lt_sqrt_of_sq_lt
    nlinarith [sq_pos_of_pos hc0]
  refine ⟨real_sin_offset_pos _ _ hc0 hlt, ?_⟩
  rw [← cos_sub_pi_div_two]
  have h := cos_lt_cos_of_nonneg_of_le_pi_div_two (le_refl (0 : ℝ))
    (show √((π / 2) ^ 2 + c ^ 2) - π / 2 ≤ π / 2 by linarith)
    (show (0 : ℝ) < √((π / 2) ^ 2 + c ^ 2) - π / 2 by linarith)
  rwa [cos_zero] at h

end RealMapping

section RealBounds

open Real

/-- The dry factor at the horizon is below 23. -/
theorem horizon_dry_factor_lt : 1 / sin (π / 72) < 23 := by
  have hpi := pi_pos
  have h314 := pi_gt_d2
  have h315 := pi_lt_d2
  have hx0 : (0 : ℝ) < π / 72 := by positivity
  have hx1 : π / 72 ≤ 1 := by linarith
  have h := sin_gt_sub_cube hx0 hx1
  have hx_hi : π / 72 < (3.15 : ℝ) / 72 := by linarith
  have hcube : (π / 72) ^ 3 < ((3.15 : ℝ) / 72) ^ 3 :=
    pow_lt_pow_left₀ hx_hi hx0.le (by norm_num)
  have hs : (1 : ℝ) / 23 < sin (π / 72) := by
    have hnum : (1 : ℝ) / 23 < 3.14 / 72 - ((3.15 : ℝ) / 72) ^ 3 / 4 := by norm_num
    linarith
  have hs0 : 0 < sin (π / 72) := by linarith
  rw [div_lt_iff₀ hs0]
  linarith

/-- Within a right angle of the horizon the sine of the offset angle is at least
the sine of the offset itself, its value at elevation 0. -/
theorem sin_offset_ge (el c : ℝ) (hel : |el| ≤ π / 2) (hc0 : 0 < c) (hc : c ≤ 3 * π / 8) :
    sin c ≤ sin (√(el ^ 2 + c ^ 2)) := by
  have hpi := pi_pos
  have h1 : el ^ 2 ≤ (π / 2) ^ 2 := by
    rw [← sq_abs el]
    exact pow_le_pow_left₀ (abs_nonneg el) hel 2
  have hlo : c ≤ √(el ^ 2 + c ^ 2) := by
    apply le_sqrt_of_sq_le
    nlinarith [sq_nonneg el]
  have hhi : √(el ^ 2 + c ^ 2) ≤ π - c := by
    rw [sqrt_le_left (by linarith)]
    nlinarith
  by_cases hcase : √(el ^ 2 + c ^ 2) ≤ π / 2
  · exact sin_le_sin_of_le_of_le_pi_div_two (by linarith) hcase hlo
  · rw [← sin_pi_sub (√(el ^ 2 + c ^ 2))]
    exact sin_le_sin_of_le_of_le_pi_div_two (by linarith) (by linarith [not_le.1 hcase])
      (by linarith)

end RealBounds

section RealMappingClaims

open Real

/-- C12: for every height within `[-1000, 20000]` and every elevation `el` with
`0 <= el <= π/2`, both factors computed by `tropmapfHpf` are numbers and at least
1.0. -/
theorem tropmapfHpf_factors_ge_one (log : List (TraceRec ℝ)) (time : gtime_t ℝ)
    (pos : Fin 3 → Dbl ℝ) (azel : Fin 2 → Dbl ℝ) (w0 : Dbl ℝ) (el : ℝ)
    (hlo : Dbl.num (-1000) ≤ pos 2) (hhi : pos 2 ≤ Dbl.num 20000) (he : azel 1 = Dbl.num el)
    (h0 : 0 ≤ el) (h1 : el ≤ π / 2) :
    ∃ d w : ℝ, (tropmapfHpf realEnv log time pos azel (some w0)).val? = some (Dbl.num d) ∧
      (tropmapfHpf realEnv log time pos azel (some w0)).out? = some (Dbl.num w) ∧
      1 ≤ d ∧ 1 ≤ w := by
  obtain ⟨c1, c2, c3, c4⟩ := offsets_small
  have habs : |el| ≤ π / 2 := abs_le.2 ⟨by linarith [pi_pos], h1⟩
  have hd := sin_offset_pos_of_abs_le el (π / 72) habs c1 c2
  have hw := sin_offset_pos_of_abs_le el (π / 120) habs c3 c4
  exact ⟨_, _, tropmapfHpf_real_dry log time pos azel w0 el hlo hhi he (ne_of_gt hd),
    tropmapfHpf_real_wet log time pos azel w0 el hlo hhi he (ne_of_gt hw),
    one_le_factor el _ hd, one_le_factor el _ hw⟩

/-- Witness at position `{0, 0, 0}` and elevation 45 degrees. -/
theorem tropmapfHpf_factors_ge_one_witness :
    ∃ d w : ℝ, (tropmapfHpf realEnv [] (gtime_t.mk 0 (Dbl.num 0))
        ![Dbl.num 0, Dbl.num 0, Dbl.num 0] ![Dbl.num 0, Dbl.num (π / 4)]
        (some (Dbl.num 0))).val? = some (Dbl.num d) ∧
      (tropmapfHpf realEnv [] (gtime_t.mk 0 (Dbl.num 0))
        ![Dbl.num 0, Dbl.num 0, Dbl.num 0] ![Dbl.num 0, Dbl.num (π / 4)]
        (some (Dbl.num 0))).out? = some (Dbl.num w) ∧ 1 ≤ d ∧ 1 ≤ w :=
  tropmapfHpf_factors_ge_one [] (gtime_t.mk 0 (Dbl.num 0)) ![Dbl.num 0, Dbl.num 0, Dbl.num 0]
    ![Dbl.num 0, Dbl.num (π / 4)] (Dbl.num 0) (π / 4) (by norm_num) (by norm_num) rfl
    (by positivity) (by linarith [pi_pos])

/-- Counterexample: between the elevations `sqrt((π/2)^2 - (π/72)^2)` and `π/2`
the dry factor does not decrease; it is 1 at the first and at least 1 at the
second. -/
theorem tropmapfHpf_dry_not_strictly_decreasing :
    0 ≤ √((π / 2) ^ 2 - (π / 72) ^ 2) ∧ √((π / 2) ^ 2 - (π / 72) ^ 2) < π / 2 ∧
      ∃ d1 d2 : ℝ,
        (tropmapfHpf realEnv [] (gtime_t.mk 0 (Dbl.num 0)) ![Dbl.num 0, Dbl.num 0, Dbl.num 0]
          ![Dbl.num 0, Dbl.num (√((π / 2) ^ 2 - (π / 72) ^ 2))]
          (some (Dbl.num 0))).val? = some (Dbl.num d1) ∧
        (tropmapfHpf realEnv [] (gtime_t.mk 0 (Dbl.num 0)) ![Dbl.num 0, Dbl.num 0, Dbl.num 0]
          ![Dbl.num 0, Dbl.num (π / 2)] (some (Dbl.num 0))).val? = some (Dbl.num d2) ∧
        ¬ (d2 < d1) := by
  obtain ⟨c1, c2, c3, c4⟩ := offsets_small
  have hpi := pi_pos
  have h1 := factor_at_right_angle (π / 72) c2 c1.le
  obtain ⟨hz0, hz1⟩ := sin_zenith_lt_one (π / 72) c1 c2
  refine ⟨sqrt_nonneg _, ?_, _, _,
    tropmapfHpf_real_dry [] (gtime_t.mk 0 (Dbl.num 0)) ![Dbl.num 0, Dbl.num 0, Dbl.num 0]
      ![Dbl.num 0, Dbl.num (√((π / 2) ^ 2 - (π / 72) ^ 2))] (Dbl.num 0) _
      (by norm_num) (by norm_num) rfl (by rw [h1]; norm_num),
    tropmapfHpf_real_dry [] (gtime_t.mk 0 (Dbl.num 0)) ![Dbl.num 0, Dbl.num 0, Dbl.num 0]
      ![Dbl.num 0, Dbl.num (π / 2)] (Dbl.num 0) _
      (by norm_num) (by norm_num) rfl (ne_of_gt hz0), ?_⟩
  · rw [sqrt_lt' (by positivity)]
    nlinarith [sq_pos_of_pos c1]
  · rw [h1, not_lt, div_one]
    exact one_le_one_div hz0 hz1.le

/-- C13, amended: for every height within `[-1000, 20000]` and all elevations
`0 <= e1 < e2`, the dry factor of `tropmapfHpf` at `e2` is not above the one at
`e1` when `e2 <= sqrt((π/2)^2 - (π/72)^2)`, and the wet factor at `e2` is not
above the one at `e1` when `e2 <= sqrt((π/2)^2 - (π/120)^2)`; the decrease is not
claimed to be strict. -/
theorem tropmapfHpf_decreasing_to_right_angle (log : List (TraceRec ℝ))
    (time : gtime_t ℝ) (pos : Fin 3 → Dbl ℝ) (azel1 azel2 : Fin 2 → Dbl ℝ) (w0 : Dbl ℝ)
    (e1 e2 : ℝ) (hlo : Dbl.num (-1000) ≤ pos 2) (hhi : pos 2 ≤ Dbl.num 20000)
    (he1 : azel1 1 = Dbl.num e1) (he2 : azel2 1 = Dbl.num e2) (h0 : 0 ≤ e1) (h12 : e1 < e2) :
    (e2 ≤ √((π / 2) ^ 2 - (π / 72) ^ 2) →
        ∃ d1 d2 : ℝ,
          (tropmapfHpf realEnv log time pos azel1 (some w0)).val? = some (Dbl.num d1) ∧
          (tropmapfHpf realEnv log time pos azel2 (some w0)).val? = some (Dbl.num d2) ∧
          d2 ≤ d1) ∧
      (e2 ≤ √((π / 2) ^ 2 - (π / 120) ^ 2) →
        ∃ v1 v2 : ℝ,
          (tropmapfHpf realEnv log time pos azel1 (some w0)).out? = some (Dbl.num v1) ∧
          (tropmapfHpf realEnv log time pos azel2 (some w0)).out? = some (Dbl.num v2) ∧
          v2 ≤ v1) := by
  obtain ⟨c1, c2, c3, c4⟩ := offsets_small
  have hpi := pi_pos
  have h02 : 0 ≤ e2 := by linarith
  constructor
  · intro h2
    have hsq := offset_le_right_angle (π / 72) e2 c2 c1.le h02 h2
    have hsq1 : e1 ^ 2 + (π / 72) ^ 2 ≤ (π / 2) ^ 2 := by nlinarith
    have hp1 := real_sin_offset_pos e1 (π / 72) c1 (by nlinarith)
    have hp2 := real_sin_offset_pos e2 (π / 72) c1 (by nlinarith)
    exact ⟨_, _, tropmapfHpf_real_dry log time pos azel1 w0 e1 hlo hhi he1 (ne_of_gt hp1),
      tropmapfHpf_real_dry log time pos azel2 w0 e2 hlo hhi he2 (ne_of_gt hp2),
      (factor_strictAnti (π / 72) e1 e2 c1 h0 h12 hsq).le⟩
  · intro h2
    have hsq := offset_le_right_angle (π / 120) e2 c4 c3.le h02 h2
    have hsq1 : e1 ^ 2 + (π / 120) ^ 2 ≤ (π / 2) ^ 2 := by nlinarith
    have hp1 := real_sin_offset_pos e1 (π / 120) c3 (by nlinarith)
    have hp2 := real_sin_offset_pos e2 (π / 120) c3 (by nlinarith)
    exact ⟨_, _, tropmapfHpf_real_wet log time pos azel1 w0 e1 hlo hhi he1 (ne_of_gt hp1),
      tropmapfHpf_real_wet log time pos azel2 w0 e2 hlo hhi he2 (ne_of_gt hp2),
      (factor_strictAnti (π / 120) e1 e2 c3 h0 h12 hsq).le⟩

/-- Witness at position `{0, 0, 0}`: the dry factor at elevation 1 rad is not
above the one at elevation 0. -/
theorem tropmapfHpf_decreasing_to_right_angle_witness :
    ∃ d1 d2 : ℝ,
      (tropmapfHpf realEnv [] (gtime_t.mk 0 (Dbl.num 0)) ![Dbl.num 0, Dbl.num 0, Dbl.num 0]
        ![Dbl.num 0, Dbl.num 0] (some (Dbl.num 0))).val? = some (Dbl.num d1) ∧
      (tropmapfHpf realEnv [] (gtime_t.mk 0 (Dbl.num 0)) ![Dbl.num 0, Dbl.num 0, Dbl.num 0]
        ![Dbl.num 0, Dbl.num 1] (some (Dbl.num 0))).val? = some (Dbl.num d2) ∧
      d2 ≤ d1 := by
  have h := tropmapfHpf_decreasing_to_right_angle [] (gtime_t.mk 0 (Dbl.num 0))
    ![Dbl.num 0, Dbl.num 0, Dbl.num 0] ![Dbl.num 0, Dbl.num 0] ![Dbl.num 0, Dbl.num 1]
    (Dbl.num 0) 0 1 (by norm_num) (by norm_num) rfl rfl (le_refl 0) (by norm_num)
  apply h.1
  apply le_sqrt_of_sq_le
  nlinarith [pi_gt_d2, pi_lt_d2]

/-- Counterexample: between the elevations `sqrt((π/2)^2 - (π/120)^2)` and `π/2`
the wet factor increases, from 1 to more than 1. -/
theorem tropmapfHpf_wet_increases_near_zenith :
    0 ≤ √((π / 2) ^ 2 - (π / 120) ^ 2) ∧ √((π / 2) ^ 2 - (π / 120) ^ 2) ≤ π / 2 ∧
      ∃ v1 v2 : ℝ,
        (tropmapfHpf realEnv [] (gtime_t.mk 0 (Dbl.num 0)) ![Dbl.num 0, Dbl.num 0, Dbl.num 0]
          ![Dbl.num 0, Dbl.num (√((π / 2) ^ 2 - (π / 120) ^ 2))]
          (some (Dbl.num 0))).out? = some (Dbl.num v1) ∧
        (tropmapfHpf realEnv [] (gtime_t.mk 0 (Dbl.num 0)) ![Dbl.num 0, Dbl.num 0, Dbl.num 0]
          ![Dbl.num 0, Dbl.num (π / 2)] (some (Dbl.num 0))).out? = some (Dbl.num v2) ∧
        ¬ (v2 ≤ v1) := by
  obtain ⟨_, _, c3, c4⟩ := offsets_small
  have hpi := pi_pos
  have h1 := factor_at_right_angle (π / 120) c4 c3.le
  obtain ⟨hz0, hz1⟩ := sin_zenith_lt_one (π / 120) c3 c4
  have hE : √((π / 2) ^ 2 - (π / 120) ^ 2) ≤ π / 2 := by
    rw [sqrt_le_left (by positivity)]
    nlinarith [sq_pos_of_pos c3]
  refine ⟨sqrt_nonneg _, hE, _, _,
    tropmapfHpf_real_wet [] (gtime_t.mk 0 (Dbl.num 0)) ![Dbl.num 0, Dbl.num 0, Dbl.num 0]
      ![Dbl.num 0, Dbl.num (√((π / 2) ^ 2 - (π / 120) ^ 2))] (Dbl.num 0) _
      (by norm_num) (by norm_num) rfl (by rw [h1]; norm_num),
    tropmapfHpf_real_wet [] (gtime_t.mk 0 (Dbl.num 0)) ![Dbl.num 0, Dbl.num 0, Dbl.num 0]
      ![Dbl.num 0, Dbl.num (π / 2)] (Dbl.num 0) _
      (by norm_num) (by norm_num) rfl (ne_of_gt hz0), ?_⟩
  rw [h1, not_le, div_one, lt_div_iff₀ hz0]
  linarith

/-- C17, amended: for every height within `[-1000, 20000]` and all elevations
`0 <= e1 <= e2`, the dry factor of `tropmapfHpf` at `e2` is at most the one at `e1`
when `e2 <= sqrt((π/2)^2 - (π/72)^2)`, and the wet factor at `e2` is at most the
one at `e1` when `e2 <= sqrt((π/2)^2 - (π/120)^2)`. -/
theorem tropmapfHpf_nonincreasing_to_right_angle (log : List (TraceRec ℝ))
    (time : gtime_t ℝ) (pos : Fin 3 → Dbl ℝ) (azel1 azel2 : Fin 2 → Dbl ℝ) (w0 : Dbl ℝ)
    (e1 e2 : ℝ) (hlo : Dbl.num (-1000) ≤ pos 2) (hhi : pos 2 ≤ Dbl.num 20000)
    (he1 : azel1 1 = Dbl.num e1) (he2 : azel2 1 = Dbl.num e2) (h0 : 0 ≤ e1) (h12 : e1 ≤ e2) :
    (e2 ≤ √((π / 2) ^ 2 - (π / 72) ^ 2) →
        ∃ d1 d2 : ℝ,
          (tropmapfHpf realEnv log time pos azel1 (some w0)).val? = some (Dbl.num d1) ∧
          (tropmapfHpf realEnv log time pos azel2 (some w0)).val? = some (Dbl.num d2) ∧
          d2 ≤ d1) ∧
      (e2 ≤ √((π / 2) ^ 2 - (π / 120) ^ 2) →
        ∃ v1 v2 : ℝ,
          (tropmapfHpf realEnv log time pos azel1 (some w0)).out? = some (Dbl.num v1) ∧
          (tropmapfHpf realEnv log time pos azel2 (some w0)).out? = some (Dbl.num v2) ∧
          v2 ≤ v1) := by
  obtain ⟨c1, c2, c3, c4⟩ := offsets_small
  have hpi := pi_pos
  have h02 : 0 ≤ e2 := by linarith
  have hsq12 : e1 ^ 2 ≤ e2 ^ 2 := pow_le_pow_left₀ h0 h12 2
  constructor
  · intro h2
    have hsq := offset_le_right_angle (π / 72) e2 c2 c1.le h02 h2
    have hp1 := real_sin_offset_pos e1 (π / 72) c1 (by nlinarith)
    have hp2 := real_sin_offset_pos e2 (π / 72) c1 (by nlinarith)
    refine ⟨_, _, tropmapfHpf_real_dry log time pos azel1 w0 e1 hlo hhi he1 (ne_of_gt hp1),
      tropmapfHpf_real_dry log time pos azel2 w0 e2 hlo hhi he2 (ne_of_gt hp2), ?_⟩
    rcases eq_or_lt_of_le h12 with heq | hlt
    · rw [heq]
    · exact (factor_strictAnti (π / 72) e1 e2 c1 h0 hlt hsq).le
  · intro h2
    have hsq := offset_le_right_angle (π / 120) e2 c4 c3.le h02 h2
    have hp1 := real_sin_offset_pos e1 (π / 120) c3 (by nlinarith)
    have hp2 := real_sin_offset_pos e2 (π / 120) c3 (by nlinarith)
    refine ⟨_, _, tropmapfHpf_real_wet log time pos azel1 w0 e1 hlo hhi he1 (ne_of_gt hp1),
      tropmapfHpf_real_wet log time pos azel2 w0 e2 hlo hhi he2 (ne_of_gt hp2), ?_⟩
    rcases eq_or_lt_of_le h12 with heq | hlt
    · rw [heq]
    · exact (factor_strictAnti (π / 120) e1 e2 c3 h0 hlt hsq).le

/-- Witness at position `{0, 0, 0}`: the wet factor at elevation 1 rad is at
most the one at elevation 1/2 rad. -/
theorem tropmapfHpf_nonincreasing_to_right_angle_witness :
    ∃ v1 v2 : ℝ,
      (tropmapfHpf realEnv [] (gtime_t.mk 0 (Dbl.num 0)) ![Dbl.num 0, Dbl.num 0, Dbl.num 0]
        ![Dbl.num 0, Dbl.num (1 / 2)] (some (Dbl.num 0))).out? = some (Dbl.num v1) ∧
      (tropmapfHpf realEnv [] (gtime_t.mk 0 (Dbl.num 0)) ![Dbl.num 0, Dbl.num 0, Dbl.num 0]
        ![Dbl.num 0, Dbl.num 1] (some (Dbl.num 0))).out? = some (Dbl.num v2) ∧
      v2 ≤ v1 := by
  have h := tropmapfHpf_nonincreasing_to_right_angle [] (gtime_t.mk 0 (Dbl.num 0))
    ![Dbl.num 0, Dbl.num 0, Dbl.num 0] ![Dbl.num 0, Dbl.num (1 / 2)] ![Dbl.num 0, Dbl.num 1]
    (Dbl.num 0) (1 / 2) 1 (by norm_num) (by norm_num) rfl rfl (by norm_num) (by norm_num)
  apply h.2
  apply le_sqrt_of_sq_le
  nlinarith [pi_gt_d2, pi_lt_d2]

/-- C18: for every elevation `el` in `[-π/2, π/2]` the two denominators of
`tropmapfHpf`, `sin(sqrt(el^2 + (PI/72)^2))` and `sin(sqrt(el^2 + (PI/120)^2))`,
are positive, so with a height within `[-1000, 20000]` neither division is a
division by zero: both factors are numbers. -/
theorem tropmapfHpf_denominators_pos (log : List (TraceRec ℝ)) (time : gtime_t ℝ)
    (pos : Fin 3 → Dbl ℝ) (azel : Fin 2 → Dbl ℝ) (w0 : Dbl ℝ) (el : ℝ)
    (hlo : Dbl.num (-1000) ≤ pos 2) (hhi : pos 2 ≤ Dbl.num 20000) (he : azel 1 = Dbl.num el)
    (h0 : -(π / 2) ≤ el) (h1 : el ≤ π / 2) :
    0 < realEnv.sin (realEnv.sqrt (el ^ 2 + (realEnv.PI / 72) ^ 2)) ∧
      0 < realEnv.sin (realEnv.sqrt (el ^ 2 + (realEnv.PI / 120) ^ 2)) ∧
      (tropmapfHpf realEnv log time pos azel (some w0)).val? =
        some (Dbl.num (1 / realEnv.sin (realEnv.sqrt (el ^ 2 + (realEnv.PI / 72) ^ 2)))) ∧
      (tropmapfHpf realEnv log time pos azel (some w0)).out? =
        some (Dbl.num (1 / realEnv.sin (realEnv.sqrt (el ^ 2 + (realEnv.PI / 120) ^ 2)))) := by
  obtain ⟨c1, c2, c3, c4⟩ := offsets_small
  have habs : |el| ≤ π / 2 := abs_le.2 ⟨h0, h1⟩
  have hd := sin_offset_pos_of_abs_le el (π / 72) habs c1 c2
  have hw := sin_offset_pos_of_abs_le el (π / 120) habs c3 c4
  exact ⟨hd, hw, tropmapfHpf_real_dry log time pos azel w0 el hlo hhi he (ne_of_gt hd),
    tropmapfHpf_real_wet log time pos azel w0 el hlo hhi he (ne_of_gt hw)⟩

/-- Witness at elevation 0, where the denominators are `sin(sqrt((π/72)^2))` and
`sin(sqrt((π/120)^2))`. -/
theorem tropmapfHpf_denominators_pos_witness :
    0 < sin (√((0 : ℝ) ^ 2 + (π / 72) ^ 2)) ∧ 0 < sin (√((0 : ℝ) ^ 2 + (π / 120) ^ 2)) :=
  have h := tropmapfHpf_denominators_pos [] (gtime_t.mk 0 (Dbl.num 0))
    ![Dbl.num 0, Dbl.num 0, Dbl.num 0] ![Dbl.num 0, Dbl.num 0] (Dbl.num 0) 0
    (by norm_num) (by norm_num) rfl (by linarith [pi_pos]) (by linarith [pi_pos])
  ⟨h.1, h.2.1⟩

/-- Counterexample: at position `{0, 0, 0}` no elevation in `[-π/2, π/2]`, so
none in `[-π/2, 0]` and none close to 0, gives a dry factor above 23. -/
theorem tropmapfHpf_dry_bounded_near_horizon :
    ¬ ∃ el : ℝ, -(π / 2) ≤ el ∧ el ≤ π / 2 ∧
      ∃ v : Dbl ℝ,
        (tropmapfHpf realEnv [] (gtime_t.mk 0 (Dbl.num 0)) ![Dbl.num 0, Dbl.num 0, Dbl.num 0]
          ![Dbl.num 0, Dbl.num el] (some (Dbl.num 0))).val? = some v ∧
        Dbl.num 23 < v := by
  rintro ⟨el, h0, h1, v, hv, hlt⟩
  obtain ⟨c1, c2, _, _⟩ := offsets_small
  have hpi := pi_pos
  have habs : |el| ≤ π / 2 := abs_le.2 ⟨h0, h1⟩
  have hd := sin_offset_pos_of_abs_le el (π / 72) habs c1 c2
  have hval := tropmapfHpf_real_dry [] (gtime_t.mk 0 (Dbl.num 0))
    ![Dbl.num 0, Dbl.num 0, Dbl.num 0] ![Dbl.num 0, Dbl.num el] (Dbl.num 0) el
    (by norm_num) (by norm_num) rfl (ne_of_gt hd)
  rw [hval] at hv
  rw [← Option.some.inj hv, Dbl.num_lt_num] at hlt
  have hge := sin_offset_ge el (π / 72) habs c1 (by linarith)
  have hs0 : 0 < sin (π / 72) := sin_pos_of_pos_of_lt_pi c1 (by linarith)
  have hle : 1 / sin (√(el ^ 2 + (π / 72) ^ 2)) ≤ 1 / sin (π / 72) :=
    one_div_le_one_div_of_le hs0 hge
  linarith [horizon_dry_factor_lt]

/-- C19, amended: for a height within `[-1000, 20000]` the dry factor of
`tropmapfHpf` does not grow without bound on the elevations `[-π/2, π/2]`: it is
at most `1/sin(π/72)`, its value at elevation 0, which is below 23. -/
theorem tropmapfHpf_dry_bounded_within_right_angle (log : List (TraceRec ℝ))
    (time : gtime_t ℝ) (pos : Fin 3 → Dbl ℝ) (az w0 : Dbl ℝ)
    (hlo : Dbl.num (-1000) ≤ pos 2) (hhi : pos 2 ≤ Dbl.num 20000) :
    (∀ el : ℝ, -(π / 2) ≤ el → el ≤ π / 2 →
        ∃ d : ℝ, (tropmapfHpf realEnv log time pos ![az, Dbl.num el] (some w0)).val? =
            some (Dbl.num d) ∧ d ≤ 1 / sin (π / 72) ∧ d < 23) ∧
      (tropmapfHpf realEnv log time pos ![az, Dbl.num 0] (some w0)).val? =
        some (Dbl.num (1 / sin (π / 72))) ∧
      1 / sin (π / 72) < 23 := by
  obtain ⟨c1, c2, _, _⟩ := offsets_small
  have hpi := pi_pos
  have hs0 : 0 < sin (π / 72) := sin_pos_of_pos_of_lt_pi c1 (by linarith)
  refine ⟨fun el h0 h1 => ?_, ?_, horizon_dry_factor_lt⟩
  · have habs : |el| ≤ π / 2 := abs_le.2 ⟨h0, h1⟩
    have hd := sin_offset_pos_of_abs_le el (π / 72) habs c1 c2
    have hle : 1 / sin (√(el ^ 2 + (π / 72) ^ 2)) ≤ 1 / sin (π / 72) :=
      one_div_le_one_div_of_le hs0 (sin_offset_ge el (π / 72) habs c1 (by linarith))
    exact ⟨_, tropmapfHpf_real_dry log time pos ![az, Dbl.num el] w0 el hlo hhi rfl
      (ne_of_gt hd), hle, lt_of_le_of_lt hle horizon_dry_factor_lt⟩
  · have h00 : √((0 : ℝ) ^ 2 + (π / 72) ^ 2) = π / 72 := by
      rw [zero_pow (by norm_num), zero_add, sqrt_sq c1.le]
    have h := tropmapfHpf_real_dry log time pos ![az, Dbl.num 0] w0 0 hlo hhi rfl
      (by rw [h00]; exact ne_of_gt hs0)
    rw [h00] at h
    exact h

/-- Witness at position `{0, 0, 0}`: the dry factor at elevation 0 and the one at
elevation `-π/2` are below 23. -/
theorem tropmapfHpf_dry_bounded_within_right_angle_witness :
    (∃ d : ℝ,
        (tropmapfHpf realEnv [] (gtime_t.mk 0 (Dbl.num 0)) ![Dbl.num 0, Dbl.num 0, Dbl.num 0]
          ![Dbl.num 0, Dbl.num 0] (some (Dbl.num 0))).val? = some (Dbl.num d) ∧ d < 23) ∧
      ∃ d : ℝ,
        (tropmapfHpf realEnv [] (gtime_t.mk 0 (Dbl.num 0)) ![Dbl.num 0, Dbl.num 0, Dbl.num 0]
          ![Dbl.num 0, Dbl.num (-(π / 2))] (some (Dbl.num 0))).val? = some (Dbl.num d) ∧
        d < 23 := by
  have h := tropmapfHpf_dry_bounded_within_right_angle [] (gtime_t.mk 0 (Dbl.num 0))
    ![Dbl.num 0, Dbl.num 0, Dbl.num 0] (Dbl.num 0) (Dbl.num 0) (by norm_num) (by norm_num)
  obtain ⟨d, hd, _, hlt⟩ := h.1 (-(π / 2)) (le_refl _) (by linarith [pi_pos])
  exact ⟨⟨_, h.2.1, h.2.2⟩, d, hd, hlt⟩

end RealMappingClaims

/-! ## The trace, the optional wet delay and the symmetry in elevation -/

section EffectClaims

variable {F : Type} [LinearOrderedField F]

/-- C21: every call of `tropmapfHpf` appends exactly one record to the trace log,
before the height check and whatever the outcome (out-of-range return, in-range
return, fault); the record carries latitude, longitude, azimuth and elevation
multiplied by `R2D`, and the height as it is. -/
theorem tropmapfHpf_traces_once (L : MathEnv F) (log : List (TraceRec F)) (time : gtime_t F)
    (pos : Fin 3 → Dbl F) (azel : Fin 2 → Dbl F) (mapfw : Option (Dbl F)) :
    (tropmapfHpf L log time pos azel mapfw).log =
        log ++ [TraceRec.mk 4 "tropmapfhpf: pos=%10.6f %11.6f %6.1f azel=%5.1f %4.1f\n"
          [pos 0 * Dbl.num L.R2D, pos 1 * Dbl.num L.R2D, pos 2,
            azel 0 * Dbl.num L.R2D, azel 1 * Dbl.num L.R2D]] ∧
      (tropmapfHpf L log time pos azel mapfw).log.length = log.length + 1 := by
  have h : (tropmapfHpf L log time pos azel mapfw).log =
      log ++ [TraceRec.mk 4 "tropmapfhpf: pos=%10.6f %11.6f %6.1f azel=%5.1f %4.1f\n"
        [pos 0 * Dbl.num L.R2D, pos 1 * Dbl.num L.R2D, pos 2,
          azel 0 * Dbl.num L.R2D, azel 1 * Dbl.num L.R2D]] := by
    unfold tropmapfHpf
    simp only []
    split
    · rfl
    · cases mapfw <;> rfl
  refine ⟨h, ?_⟩
  rw [h, List.length_append, List.length_singleton]

/-- C22: no call of `tropmodelHpf` appends a record to the trace log, on the valid
path or on the degenerate one; the call returns, and the log after it is the log
before it. -/
theorem tropmodelHpf_traces_nothing (log : List (TraceRec F)) (time : gtime_t F)
    (pos : Fin 3 → Dbl F) (azel : Fin 2 → Dbl F) (humi : Dbl F) (zwd : Option (Dbl F)) :
    (tropmodelHpf log time pos azel humi zwd).log = log ∧
      (tropmodelHpf log time pos azel humi zwd).faults = false := by
  obtain ⟨v, o, h⟩ := tropmodelHpf_log_free log time pos azel humi zwd
  rw [h log]
  exact ⟨rfl, rfl⟩

/-- C23: the wet-delay output of `tropmodelHpf` is optional on every path: for
every input the call without a slot does not fault, returns a value, and that
value is the one returned by the call with a slot. -/
theorem tropmodelHpf_slot_optional (log : List (TraceRec F)) (time : gtime_t F)
    (pos : Fin 3 → Dbl F) (azel : Fin 2 → Dbl F) (humi : Dbl F) (w0 : Dbl F) :
    (tropmodelHpf log time pos azel humi none).faults = false ∧
      (∃ v, (tropmodelHpf log time pos azel humi none).val? = some v) ∧
      (tropmodelHpf log time pos azel humi none).val? =
        (tropmodelHpf log time pos azel humi (some w0)).val? := by
  by_cases hc : pos 2 < Dbl.num (-100) ∨ Dbl.num 10000 < pos 2 ∨ azel 1 ≤ Dbl.num 0
  · rw [tropmodelHpf_rejected log time pos azel humi none hc,
      tropmodelHpf_rejected log time pos azel humi (some w0) hc]
    exact ⟨rfl, ⟨_, rfl⟩, rfl⟩
  · rw [tropmodelHpf_accepted log time pos azel humi none hc,
      tropmodelHpf_accepted log time pos azel humi (some w0) hc]
    exact ⟨rfl, ⟨_, rfl⟩, rfl⟩

/-- C26: the mapping factors are even in the elevation: for a height within
`[-1000, 20000]` and every number `el`, the calls of `tropmapfHpf` at elevation
`-el` and at elevation `el` return the same dry factor and store the same wet
factor, and neither is refused. -/
theorem tropmapfHpf_even_in_elevation (L : MathEnv F) (log : List (TraceRec F))
    (time : gtime_t F) (pos : Fin 3 → Dbl F) (azel1 azel2 : Fin 2 → Dbl F) (w0 : Dbl F)
    (el : F) (hlo : Dbl.num (-1000) ≤ pos 2) (hhi : pos 2 ≤ Dbl.num 20000)
    (he1 : azel1 1 = Dbl.num el) (he2 : azel2 1 = Dbl.num (-el)) :
    (tropmapfHpf L log time pos azel2 (some w0)).val? =
        (tropmapfHpf L log time pos azel1 (some w0)).val? ∧
      (tropmapfHpf L log time pos azel2 (some w0)).out? =
        (tropmapfHpf L log time pos azel1 (some w0)).out? ∧
      (tropmapfHpf L log time pos azel2 (some w0)).val? =
        some (Dbl.num 1 /
          Dbl.sin L (Dbl.sqrt L (Dbl.num (el ^ 2) + (Dbl.num L.PI / Dbl.num 72) ^ 2))) ∧
      (tropmapfHpf L log time pos azel2 (some w0)).faults = false := by
  have hv : ¬ (pos 2 < Dbl.num (-1000) ∨ Dbl.num 20000 < pos 2) := by
    rintro (h | h)
    · exact Dbl.not_lt_of_le hlo h
    · exact Dbl.not_lt_of_le hhi h
  obtain ⟨l1, h1⟩ := tropmapfHpf_accepted_some L log time pos azel1 w0 hv
  obtain ⟨l2, h2⟩ := tropmapfHpf_accepted_some L log time pos azel2 w0 hv
  rw [h1, h2, he1, he2, Dbl.num_pow, Dbl.num_pow, neg_sq]
  exact ⟨rfl, rfl, rfl, rfl⟩

/-- Witness over the reals at position `{0, 0, 0}`, elevations 1/2 and -1/2 rad. -/
theorem tropmapfHpf_even_in_elevation_witness :
    (tropmapfHpf realEnv [] (gtime_t.mk 0 (Dbl.num 0)) ![Dbl.num 0, Dbl.num 0, Dbl.num 0]
        ![Dbl.num 0, Dbl.num (-(1 / 2))] (some (Dbl.num 0))).val? =
      (tropmapfHpf realEnv [] (gtime_t.mk 0 (Dbl.num 0)) ![Dbl.num 0, Dbl.num 0, Dbl.num 0]
        ![Dbl.num 0, Dbl.num (1 / 2)] (some (Dbl.num 0))).val? ∧
    (tropmapfHpf realEnv [] (gtime_t.mk 0 (Dbl.num 0)) ![Dbl.num 0, Dbl.num 0, Dbl.num 0]
        ![Dbl.num 0, Dbl.num (-(1 / 2))] (some (Dbl.num 0))).out? =
      (tropmapfHpf realEnv [] (gtime_t.mk 0 (Dbl.num 0)) ![Dbl.num 0, Dbl.num 0, Dbl.num 0]
        ![Dbl.num 0, Dbl.num (1 / 2)] (some (Dbl.num 0))).out? :=
  have h := tropmapfHpf_even_in_elevation realEnv [] (gtime_t.mk 0 (Dbl.num 0))
    ![Dbl.num 0, Dbl.num 0, Dbl.num 0] ![Dbl.num 0, Dbl.num (1 / 2)]
    ![Dbl.num 0, Dbl.num (-(1 / 2))] (Dbl.num 0) (1 / 2) (by norm_num) (by norm_num) rfl rfl
  ⟨h.1, h.2.1⟩

end EffectClaims

/-! ## The slant correction -/

section SlantClaims

open Real

/-- The wet zenith delay of the valid path is a positive number. -/
theorem wet_delay_pos : (0 : ℝ) < (77.6e-6 * 11000.0 * 4810.0 * 10.4 / 291.1 ^ 2) / 5.0 := by
  norm_num

/-- A height accepted by `tropmodelHpf` is accepted by `tropmapfHpf`: the range
`[-100, 10000]` lies in `[-1000, 20000]`. -/
theorem mapf_range_of_model_range {F : Type} [LinearOrderedField F] {p : Dbl F}
    (hlo : Dbl.num (-100) ≤ p) (hhi : p ≤ Dbl.num 10000) :
    Dbl.num (-1000) ≤ p ∧ p ≤ Dbl.num 20000 := by
  cases p with
  | nan => exact absurd hhi (Dbl.not_nan_le _)
  | num h =>
    rw [Dbl.num_le_num] at hlo hhi ⊢
    rw [Dbl.num_le_num]
    constructor <;> linarith

/-- C24: whenever the zenith delay is applicable the mapping is too, and the
slant correction is not smaller than the zenith one: for a height within
`[-100, 10000]` and `0 < el <= π/2`, `tropmapfHpf` takes its in-range path, the
four results are numbers, and
`dryDelay*dryMap + wetDelay*wetMap >= dryDelay + wetDelay > 0`. -/
theorem slant_correction_ge_zenith (log : List (TraceRec ℝ)) (time : gtime_t ℝ)
    (pos : Fin 3 → Dbl ℝ) (azel : Fin 2 → Dbl ℝ) (humi z0 w0 : Dbl ℝ) (el : ℝ)
    (hlo : Dbl.num (-100) ≤ pos 2) (hhi : pos 2 ≤ Dbl.num 10000) (he : azel 1 = Dbl.num el)
    (h0 : 0 < el) (h1 : el ≤ π / 2) :
    ¬ (pos 2 < Dbl.num (-1000) ∨ Dbl.num 20000 < pos 2) ∧
      ∃ dryDelay wetDelay dryMap wetMap : ℝ,
        (tropmodelHpf log time pos azel humi (some z0)).val? = some (Dbl.num dryDelay) ∧
        (tropmodelHpf log time pos azel humi (some z0)).out? = some (Dbl.num wetDelay) ∧
        (tropmapfHpf realEnv log time pos azel (some w0)).val? = some (Dbl.num dryMap) ∧
        (tropmapfHpf realEnv log time pos azel (some w0)).out? = some (Dbl.num wetMap) ∧
        dryDelay + wetDelay ≤ dryDelay * dryMap + wetDelay * wetMap ∧
        0 < dryDelay + wetDelay := by
  obtain ⟨c1, c2, c3, c4⟩ := offsets_small
  obtain ⟨hlo2, hhi2⟩ := mapf_range_of_model_range hlo hhi
  have hel : Dbl.num 0 < azel 1 := by
    rw [he, Dbl.num_lt_num]
    exact h0
  have hacc := tropmodelHpf_accepted log time pos azel humi (some z0)
    (tropmodelHpf_not_rejected hlo hhi hel)
  have habs : |el| ≤ π / 2 := abs_le.2 ⟨by linarith [pi_pos], h1⟩
  have hd := sin_offset_pos_of_abs_le el (π / 72) habs c1 c2
  have hw := sin_offset_pos_of_abs_le el (π / 120) habs c3 c4
  have hdm := one_le_factor el _ hd
  have hwm := one_le_factor el _ hw
  have hdd : (0 : ℝ) < (77.6e-6 * (-613.3768 / 291.1 + 148.98) * 1010.0) / 5.0 := dry_delay_pos
  have hwd := wet_delay_pos
  refine ⟨?_, (77.6e-6 * (-613.3768 / 291.1 + 148.98) * 1010.0) / 5.0,
    (77.6e-6 * 11000.0 * 4810.0 * 10.4 / 291.1 ^ 2) / 5.0, _, _, ?_, ?_,
    tropmapfHpf_real_dry log time pos azel w0 el hlo2 hhi2 he (ne_of_gt hd),
    tropmapfHpf_real_wet log time pos azel w0 el hlo2 hhi2 he (ne_of_gt hw), ?_, ?_⟩
  · rintro (h | h)
    · exact Dbl.not_lt_of_le hlo2 h
    · exact Dbl.not_lt_of_le hhi2 h
  · rw [hacc]
    rfl
  · rw [hacc]
    rfl
  · nlinarith
  · linarith

/-- Witness at position `{0, 0, 0}` and elevation 45 degrees. -/
theorem slant_correction_ge_zenith_witness :
    ∃ dryDelay wetDelay dryMap wetMap : ℝ,
      (tropmodelHpf [] (gtime_t.mk 0 (Dbl.num 0)) ![Dbl.num 0, Dbl.num 0, Dbl.num 0]
        ![Dbl.num 0, Dbl.num (π / 4)] (Dbl.num (1 / 2)) (some (Dbl.num 0))).val? =
          some (Dbl.num dryDelay) ∧
      (tropmodelHpf [] (gtime_t.mk 0 (Dbl.num 0)) ![Dbl.num 0, Dbl.num 0, Dbl.num 0]
        ![Dbl.num 0, Dbl.num (π / 4)] (Dbl.num (1 / 2)) (some (Dbl.num 0))).out? =
          some (Dbl.num wetDelay) ∧
      (tropmapfHpf realEnv [] (gtime_t.mk 0 (Dbl.num 0)) ![Dbl.num 0, Dbl.num 0, Dbl.num 0]
        ![Dbl.num 0, Dbl.num (π / 4)] (some (Dbl.num 0))).val? = some (Dbl.num dryMap) ∧
      (tropmapfHpf realEnv [] (gtime_t.mk 0 (Dbl.num 0)) ![Dbl.num 0, Dbl.num 0, Dbl.num 0]
        ![Dbl.num 0, Dbl.num (π / 4)] (some (Dbl.num 0))).out? = some (Dbl.num wetMap) ∧
      dryDelay + wetDelay ≤ dryDelay * dryMap + wetDelay * wetMap ∧
      0 < dryDelay + wetDelay :=
  (slant_correction_ge_zenith [] (gtime_t.mk 0 (Dbl.num 0)) ![Dbl.num 0, Dbl.num 0, Dbl.num 0]
    ![Dbl.num 0, Dbl.num (π / 4)] (Dbl.num (1 / 2)) (Dbl.num 0) (Dbl.num 0) (π / 4)
    (by norm_num) (by norm_num) rfl (by positivity) (by linarith [pi_pos])).2

end SlantClaims

end Hopfield

/-! # Properties of the post-processing dialog -/

namespace RtkPost

/-! ## The extension test of `btnExecClicked` -/

/-- The characters after the last `c` do not contain `c`. -/
theorem not_mem_afterLast (c : Char) (s : QString) : c ∉ afterLast c s := by
  intro h
  unfold afterLast at h
  rw [List.mem_reverse] at h
  have h2 := List.mem_takeWhile_imp h
  simp at h2

/-- The string that `QFileInfo::suffix` returns contains no dot. -/
theorem suffix_no_dot (path : QString) : '.' ∉ suffix path := by
  unfold suffix
  split
  · exact not_mem_afterLast '.' _
  · simp

/-- C27: `btnExecClicked` does not refuse the output file names that end in
`.obs`, `.rnx`, `.nav`, `.gnav`, `.gz`, `.Z` or `.24o`: the string it tests,
`QFileInfo::suffix()`, holds no dot, every pattern starts with a dot, and the
click goes on to `execProcessing`. -/
theorem btnExecClicked_accepts_rinex_extensions :
    btnExecClicked 1 5 "rover.obs".toList [] "out.obs".toList 0 = Clicked.execProcessing ∧
    btnExecClicked 1 5 "rover.obs".toList [] "out.rnx".toList 0 = Clicked.execProcessing ∧
    btnExecClicked 1 5 "rover.obs".toList [] "out.nav".toList 0 = Clicked.execProcessing ∧
    btnExecClicked 1 5 "rover.obs".toList [] "out.gnav".toList 0 = Clicked.execProcessing ∧
    btnExecClicked 1 5 "rover.obs".toList [] "out.gz".toList 0 = Clicked.execProcessing ∧
    btnExecClicked 1 5 "rover.obs".toList [] "out.Z".toList 0 = Clicked.execProcessing ∧
    btnExecClicked 1 5 "rover.obs".toList [] "out.24o".toList 0 = Clicked.execProcessing ∧
    suffix "out.obs".toList = "obs".toList := by
  decide

/-! ## `toList` -/

/-- The index that `indexOf` finds is the length of the part before the first
occurrence; -1 when there is none. -/
theorem indexOfFrom_eq (c : Char) (s : QString) (i : Nat) :
    indexOfFrom c i s =
      if c ∈ s then ((i + (s.takeWhile (fun x => x ≠ c)).length : Nat) : Int) else -1 := by
  induction s generalizing i with
  | nil => simp [indexOfFrom]
  | cons x xs ih =>
    unfold indexOfFrom
    by_cases hx : x = c
    · simp [hx]
    · have hx2 : ¬ c = x := fun h => hx h.symm
      rw [if_neg hx, ih (i + 1)]
      simp only [List.mem_cons, hx2, false_or]
      split
      · simp [List.takeWhile_cons, hx]
        omega
      · rfl

/-- Taking as many characters as the part before the first `c` has gives that
part. -/
theorem take_length_takeWhile (p : Char → Bool) (s : QString) :
    s.take (s.takeWhile p).length = s.takeWhile p := by
  induction s with
  | nil => rfl
  | cons x xs ih =>
    by_cases hx : p x
    · simp [List.takeWhile_cons, hx, ih]
    · simp [List.takeWhile_cons, hx]

/-- A part before the first `c` of a string without `c` is the whole string. -/
theorem takeWhile_of_not_mem (c : Char) (s : QString) (h : c ∉ s) :
    s.takeWhile (fun x => x ≠ c) = s := by
  induction s with
  | nil => rfl
  | cons x xs ih =>
    simp only [List.mem_cons, not_or] at h
    have hx : x ≠ c := fun e => h.1 e.symm
    simp only [List.takeWhile_cons, hx, ne_eq, not_false_eq_true, decide_True, if_true]
    rw [ih h.2]

/-- What the loop body of `toList` takes of one line: the part before its first
`'#'`. -/
theorem kept_part (line : QString) :
    mid line 0 (if indexOf '#' line = -1 then (line.length : Int) else indexOf '#' line) =
      line.takeWhile (fun c => c ≠ '#') := by
  unfold indexOf mid
  rw [indexOfFrom_eq]
  by_cases h : '#' ∈ line
  · simp only [if_pos h, Nat.zero_add]
    have hne : ¬ (((line.takeWhile (fun x => x ≠ '#')).length : Int) = -1) := by omega
    rw [if_neg hne]
    simp only [Int.toNat_zero, List.drop_zero, Int.toNat_ofNat]
    exact take_length_takeWhile _ line
  · simp only [if_neg h, if_true, Int.toNat_zero, List.drop_zero, Int.toNat_ofNat,
      List.take_length]
    exact (takeWhile_of_not_mem '#' line h).symm

/-- A loop that appends one piece per element builds the concatenation of the
pieces. -/
theorem foldl_append_eq (g : QString → QString) (lines : List QString) (init : QString) :
    lines.foldl (fun acc line => acc ++ g line) init = init ++ (lines.map g).flatten := by
  induction lines generalizing init with
  | nil => simp
  | cons l ls ih => simp [ih, List.append_assoc]

/-- The function `toList` computes what its description says. -/
theorem toList_eq_spec (text : QString) : ProcessingThread.toList text = toListSpec text := by
  unfold ProcessingThread.toList toListSpec
  simp only [kept_part]
  rw [foldl_append_eq (fun line => line.takeWhile (fun c => c ≠ '#') ++ " ".toList)]
  rfl

/-- The pieces of the description hold no `'#'`, and one space each besides the
spaces of the kept parts. -/
theorem pieces_spec (lines : List QString) :
    '#' ∉ (lines.map (fun line => line.takeWhile (fun c => c ≠ '#') ++ [' '])).flatten ∧
      ((lines.map (fun line => line.takeWhile (fun c => c ≠ '#') ++ [' '])).flatten).count ' ' =
        ((lines.map (fun line => line.takeWhile (fun c => c ≠ '#'))).flatten).count ' ' +
          lines.length := by
  induction lines with
  | nil => simp
  | cons l ls ih =>
    obtain ⟨ih1, ih2⟩ := ih
    constructor
    · simp only [List.map_cons, List.flatten_cons, List.mem_append, not_or]
      refine ⟨⟨?_, by decide⟩, ih1⟩
      intro h
      have h2 := List.mem_takeWhile_imp h
      simp at h2
    · simp only [List.map_cons, List.flatten_cons, List.count_append, ih2, List.length_cons]
      simp
      omega

/-- A text has one line more than it has line feeds. -/
theorem split_length (text : QString) : (split '\n' text).length = text.count '\n' + 1 := by
  induction text with
  | nil => rfl
  | cons c cs ih =>
    unfold split
    by_cases hc : c = '\n'
    · rw [if_pos hc, List.length_cons, ih, hc, List.count_cons_self]
    · rw [if_neg hc]
      have hne : ('\n' : Char) ≠ c := fun e => hc e.symm
      cases hs : split '\n' cs with
      | nil => rw [hs] at ih; simp at ih
      | cons p ps =>
        rw [hs] at ih
        simp only [List.length_cons] at ih ⊢
        rw [List.count_cons_of_ne hne]
        exact ih

/-- C29: `toList` strips comments and joins lines: the result is the
concatenation, over the lines of the text split at the line feeds and in order,
of the part of the line before its first `'#'` (the whole line when it has none)
followed by one space; it contains no `'#'`, and for a text of `k` lines it has
exactly `k` more spaces than the kept parts. -/
theorem toList_strips_comments (text : QString) :
    ProcessingThread.toList text =
        ((split '\n' text).map
          (fun line => line.takeWhile (fun c => c ≠ '#') ++ [' '])).flatten ∧
      ProcessingThread.toList text = toListSpec text ∧
      '#' ∉ ProcessingThread.toList text ∧
      (ProcessingThread.toList text).count ' ' =
        (((split '\n' text).map
          (fun line => line.takeWhile (fun c => c ≠ '#'))).flatten).count ' ' +
          (split '\n' text).length ∧
      (split '\n' text).length = text.count '\n' + 1 := by
  have h := toList_eq_spec text
  have hp := pieces_spec (split '\n' text)
  refine ⟨h, h, ?_, ?_, split_length text⟩
  · rw [h]
    exact hp.1
  · rw [h]
    exact hp.2


/-! ## The input-file table -/

/-- Writing the buffer `n` and counting it in: the stored names grow by the one
written. -/
theorem take_succ_set (l : List QString) (n : Nat) (x : QString) (h : n < l.length) :
    (l.set n x).take (n + 1) = l.take n ++ [x] := by
  induction l generalizing n with
  | nil => simp at h
  | cons y ys ih =>
    cases n with
    | zero => simp
    | succ m =>
      have hm : m < ys.length := by simpa using h
      simp [List.set_cons_succ, List.take_succ_cons, ih m hm]

/-- One call of `addInput` inside `execProcessing`, made or skipped by a test,
while a buffer is free: it does not fault, it keeps the six buffers, it raises
`n` by at most one, and it stores the name given when the name is not empty. -/
theorem addInputStep_spec (c : Prop) [Decidable c] (t : ProcessingThread) (file : QString)
    (hlen : t.infile.length = 6) (hn : t.n < 6) :
    ∃ t2 : ProcessingThread,
      (if c then addInputStep t file else pure t) = Except.ok t2 ∧
      t2.infile.length = 6 ∧ t2.n ≤ t.n + 1 ∧ t.n ≤ t2.n ∧
      t2.stored = t.stored ++
        ((if c then [file] else []).filter (fun f => f ≠ [])).map (fun f => strncpy f 1024) := by
  by_cases hc : c
  · by_cases hf : file = []
    · refine ⟨t, ?_, hlen, by omega, le_refl _, ?_⟩
      · simp [hc, hf, addInputStep, ProcessingThread.addInput]
      · simp [hc, hf]
    · have hlt : t.n < t.infile.length := by omega
      refine ⟨ProcessingThread.mk (t.n + 1) (t.infile.set t.n (strncpy file 1024)),
        ?_, ?_, le_refl _, by simp, ?_⟩
      · simp [hc, hf, addInputStep, ProcessingThread.addInput, hlt]
      · simp [hlen]
      · simp only [ProcessingThread.stored, hc, if_true]
        rw [take_succ_set _ _ _ hlt]
        simp [hf]
  · refine ⟨t, ?_, hlen, by omega, le_refl _, ?_⟩
    · rw [if_neg hc]
      rfl
    · simp [hc]

/-- The function `addInput` by cases: an empty name changes nothing; a name that
is not empty is stored at index `n`, and `n` is raised, when `n` is the index of
a buffer; otherwise the write is outside the buffers. -/
theorem addInput_cases (t : ProcessingThread) (file : QString) :
    (file = [] → t.addInput file = some t) ∧
      (file ≠ [] → t.n < t.infile.length →
        t.addInput file =
          some (ProcessingThread.mk (t.n + 1) (t.infile.set t.n (strncpy file 1024)))) ∧
      (file ≠ [] → ¬ t.n < t.infile.length → t.addInput file = none) := by
  refine ⟨fun h => ?_, fun h hn => ?_, fun h hn => ?_⟩
  · simp [ProcessingThread.addInput, h]
  · simp [ProcessingThread.addInput, h, hn]
  · simp [ProcessingThread.addInput, h, hn]

/-- A step that returns hands its result to the rest of the function. -/
theorem ok_bind (t : ProcessingThread) (f : ProcessingThread → Except Stop ProcessingThread) :
    (Except.ok t >>= f) = f t := rfl

/-- A step that stops ends the function. -/
theorem error_bind (e : Stop) (f : ProcessingThread → Except Stop ProcessingThread) :
    ((Except.error e : Except Stop ProcessingThread) >>= f) = Except.error e := rfl

/-- A name added only when it is not empty is stored exactly when it is not
empty. -/
theorem guarded_name (f : QString) :
    ((if f ≠ [] then [f] else []).filter (fun g => g ≠ [])) = [f].filter (fun g => g ≠ []) := by
  by_cases h : f = []
  · simp [h]
  · simp [h]

/-- The paths of `execProcessing`: it ends with all input files set, or after the
message that there is no navigation data; on both paths `n <= 6` and the six
buffers are kept, and on the first the stored names are the names that are not
empty, in the order of the calls. -/
theorem execProcessing_paths (PMODE_DGPS PMODE_FIXED : Int)
    (obsToNav : QString → Int × QString) (F1 F2 F3 F4 F5 F6 : QString) (positionMode : Int) :
    (∃ t : ProcessingThread,
        execProcessing PMODE_DGPS PMODE_FIXED obsToNav F1 F2 F3 F4 F5 F6 positionMode =
          Except.ok t ∧
        t.n ≤ 6 ∧ t.infile.length = 6 ∧
        t.stored =
          ((inputsInOrder PMODE_DGPS PMODE_FIXED obsToNav F1 F2 F3 F4 F5 F6 positionMode).filter
            (fun f => f ≠ [])).map (fun f => strncpy f 1024)) ∨
      (∃ t : ProcessingThread,
        execProcessing PMODE_DGPS PMODE_FIXED obsToNav F1 F2 F3 F4 F5 F6 positionMode =
          Except.error (Stop.finished t (some "error: no navigation data")) ∧
        t.n ≤ 6 ∧ t.infile.length = 6 ∧ F3 = [] ∧ (obsToNav F1).1 = 0) := by
  unfold execProcessing
  simp only [getOption]
  rw [if_neg (by decide : ¬ ((1 : Int) = 0))]
  obtain ⟨t1, h1, l1, n1, m1, s1⟩ :=
    addInputStep_spec True ProcessingThread.new F1 rfl (by decide)
  rw [if_pos trivial] at h1
  have n1b : t1.n ≤ 1 := n1
  obtain ⟨t2, h2, l2, n2, m2, s2⟩ :=
    addInputStep_spec (PMODE_DGPS ≤ positionMode ∧ positionMode ≤ PMODE_FIXED) t1 F2 l1
      (by omega)
  rw [h1, ok_bind, h2, ok_bind]
  by_cases hF3 : F3 = []
  · rw [if_neg (not_not.2 hF3)]
    by_cases hobs : (obsToNav F1).1 = 0
    · rw [if_pos hobs, error_bind]
      exact Or.inr ⟨t2, rfl, by omega, l2, hF3, hobs⟩
    · rw [if_neg hobs]
      obtain ⟨t3, h3, l3, n3, m3, s3⟩ :=
        addInputStep_spec True t2 (obsToNav F1).2 l2 (by omega)
      rw [if_pos trivial] at h3
      obtain ⟨t4, h4, l4, n4, m4, s4⟩ := addInputStep_spec (F4 ≠ []) t3 F4 l3 (by omega)
      obtain ⟨t5, h5, l5, n5, m5, s5⟩ := addInputStep_spec (F5 ≠ []) t4 F5 l4 (by omega)
      obtain ⟨t6, h6, l6, n6, m6, s6⟩ := addInputStep_spec (F6 ≠ []) t5 F6 l5 (by omega)
      rw [h3, ok_bind, h4, ok_bind, h5, ok_bind, h6, ok_bind]
      refine Or.inl ⟨t6, rfl, by omega, l6, ?_⟩
      rw [s6, s5, s4, s3, s2, s1, guarded_name F4, guarded_name F5, guarded_name F6]
      have hnew : ProcessingThread.new.stored = [] := rfl
      simp only [inputsInOrder, hF3, hnew, ne_eq, not_true_eq_false, if_false, if_true,
        List.filter_append, List.map_append, List.append_assoc, List.nil_append]
  · rw [if_pos hF3]
    obtain ⟨t3, h3, l3, n3, m3, s3⟩ := addInputStep_spec True t2 F3 l2 (by omega)
    rw [if_pos trivial] at h3
    obtain ⟨t4, h4, l4, n4, m4, s4⟩ := addInputStep_spec (F4 ≠ []) t3 F4 l3 (by omega)
    obtain ⟨t5, h5, l5, n5, m5, s5⟩ := addInputStep_spec (F5 ≠ []) t4 F5 l4 (by omega)
    obtain ⟨t6, h6, l6, n6, m6, s6⟩ := addInputStep_spec (F6 ≠ []) t5 F6 l5 (by omega)
    rw [h3, ok_bind, h4, ok_bind, h5, ok_bind, h6, ok_bind]
    refine Or.inl ⟨t6, rfl, by omega, l6, ?_⟩
    rw [s6, s5, s4, s3, s2, s1, guarded_name F4, guarded_name F5, guarded_name F6]
    have hnew : ProcessingThread.new.stored = [] := rfl
    simp only [inputsInOrder, hF3, hnew, ne_eq, not_false_eq_true, if_true,
      List.filter_append, List.map_append, List.append_assoc, List.nil_append]

/-- C28: the input-file table never overflows during `execProcessing`.
`addInput` stores only names that are not empty, each at index `n`, and then
raises `n`; on a freshly constructed thread no path of `execProcessing` writes
outside the six buffers, `n` ends at most 6 on every path, and where all files
are set the stored names are the names that are not empty, in the order rover,
base, navigation, file 4, file 5, file 6. -/
theorem execProcessing_infile_never_overflows (PMODE_DGPS PMODE_FIXED : Int)
    (obsToNav : QString → Int × QString) (F1 F2 F3 F4 F5 F6 : QString) (positionMode : Int) :
    execProcessing PMODE_DGPS PMODE_FIXED obsToNav F1 F2 F3 F4 F5 F6 positionMode ≠
        Except.error Stop.fault ∧
      (∀ t : ProcessingThread,
        execProcessing PMODE_DGPS PMODE_FIXED obsToNav F1 F2 F3 F4 F5 F6 positionMode =
            Except.ok t →
          t.n ≤ 6 ∧ t.infile.length = 6 ∧
          t.stored =
            ((inputsInOrder PMODE_DGPS PMODE_FIXED obsToNav F1 F2 F3 F4 F5 F6
              positionMode).filter (fun f => f ≠ [])).map (fun f => strncpy f 1024)) ∧
      (∀ (t : ProcessingThread) (m : Option String),
        execProcessing PMODE_DGPS PMODE_FIXED obsToNav F1 F2 F3 F4 F5 F6 positionMode =
            Except.error (Stop.finished t m) →
          t.n ≤ 6 ∧ t.infile.length = 6) ∧
      (∀ (t : ProcessingThread) (file : QString),
        (file = [] → t.addInput file = some t) ∧
        (file ≠ [] → t.n < t.infile.length →
          t.addInput file =
            some (ProcessingThread.mk (t.n + 1) (t.infile.set t.n (strncpy file 1024)))) ∧
        (file ≠ [] → ¬ t.n < t.infile.length → t.addInput file = none)) := by
  refine ⟨?_, ?_, ?_, fun t file => addInput_cases t file⟩
  · rcases execProcessing_paths PMODE_DGPS PMODE_FIXED obsToNav F1 F2 F3 F4 F5 F6 positionMode
      with ⟨t, h, _⟩ | ⟨t, h, _⟩
    · rw [h]
      exact fun e => Except.noConfusion e
    · rw [h]
      intro e
      exact Stop.noConfusion (Except.error.inj e)
  · intro t ht
    rcases execProcessing_paths PMODE_DGPS PMODE_FIXED obsToNav F1 F2 F3 F4 F5 F6 positionMode
      with ⟨t2, h, hn, hl, hs⟩ | ⟨t2, h, _⟩
    · rw [h] at ht
      rw [← Except.ok.inj ht]
      exact ⟨hn, hl, hs⟩
    · rw [h] at ht
      exact Except.noConfusion ht
  · intro t m ht
    rcases execProcessing_paths PMODE_DGPS PMODE_FIXED obsToNav F1 F2 F3 F4 F5 F6 positionMode
      with ⟨t2, h, _⟩ | ⟨t2, h, hn, hl, _⟩
    · rw [h] at ht
      exact Except.noConfusion ht
    · rw [h] at ht
      have e := Stop.finished.inj (Except.error.inj ht)
      rw [← e.1]
      exact ⟨hn, hl⟩

end RtkPost
